import Mathlib

/-!
A pool allocator with size-segregated free lists.

Shallow embedding of `src/code.cpp`, with two views of the storage.

* Addresses are natural numbers, `0` is the null pointer.
* `size_t` arithmetic is carried out on `Nat` and reduced modulo `2 ^ 64`
  wherever the C++ code can wrap.
* Header view (`State`): `mem a` is the `BlockHeader` object stored at address `a`,
  one record for each header address. It is exact as long as the headers that a
  call touches share no byte. It carries the pure functions, the search of
  `findBlockInPool`, and the call sequences of the first part; on each of these
  sequences the byte view gives the same observation (last section).
* Byte view (`Bytes.State`): `mem a` is the byte stored at address `a`. A header
  is the 32 bytes that the LP64 target lays out for `struct BlockHeader`, little
  endian, so headers less than 32 bytes apart share bytes, which happens once
  `myFree` has left an absorbed header linked. A byte that was never stored is
  indeterminate, and a call that loads one has no defined result.
* The global variables `poolList` and `freeLists` are the two other components
  of the allocator state; the chain of `PoolHeader` objects is a list whose head
  is the most recently created pool.
* Loops over linked structures that the code does not bound (`while (current)`
  in `findBlockInPool`, the recursion of `myMalloc`) take a fuel argument and
  return `none` when it runs out.
-/

namespace Allocator

/-! ## Constants -/

/-- Constant `const size_t POOL_SIZE = 1024 * 1024`. -/
def POOL_SIZE : Nat := 1024 * 1024

/-- Constant `const size_t ALIGNMENT = 16`. -/
def ALIGNMENT : Nat := 16

/-- Constant `const int NUM_CLASSES = 4`. -/
def NUM_CLASSES : Nat := 4

/-- Value of `sizeof(BlockHeader)` on an LP64 target: an 8-byte `size_t`, a `bool` padded to
8 bytes and two 8-byte pointers. -/
def HEADER_SIZE : Nat := 32

/-- Number of values of the 64-bit type `size_t`. -/
def SIZE_MOD : Nat := 2 ^ 64

/-! ## Data model -/

/-- Type `struct BlockHeader`; `next` and `prev` are addresses, `0` is `nullptr`. -/
structure BlockHeader where
  size : Nat
  free : Bool
  next : Nat
  prev : Nat
deriving DecidableEq, Repr

/-- Type `struct PoolHeader`; its `next` field is the tail of the list that holds it. -/
structure PoolHeader where
  base : Nat
  firstBlock : Nat
deriving DecidableEq, Repr

/-- Allocator state in the header view: the block headers in memory, one record for each
header address, and the globals `poolList`, `freeLists`. -/
structure State where
  mem : Nat → BlockHeader
  poolList : List PoolHeader
  freeLists : Nat → Nat

/-- State at program start: `poolList = nullptr`, `freeLists = {nullptr}`, no header written. -/
def State.start : State :=
  { mem := fun _ => { size := 0, free := false, next := 0, prev := 0 }
    poolList := []
    freeLists := fun _ => 0 }

/-- Assignment `b->size = v`. -/
def setSize (s : State) (b v : Nat) : State :=
  { s with mem := fun a => if a = b then { s.mem b with size := v } else s.mem a }

/-- Assignment `b->free = v`. -/
def setFree (s : State) (b : Nat) (v : Bool) : State :=
  { s with mem := fun a => if a = b then { s.mem b with free := v } else s.mem a }

/-- Assignment `b->next = v`. -/
def setNext (s : State) (b v : Nat) : State :=
  { s with mem := fun a => if a = b then { s.mem b with next := v } else s.mem a }

/-- Assignment `b->prev = v`. -/
def setPrev (s : State) (b v : Nat) : State :=
  { s with mem := fun a => if a = b then { s.mem b with prev := v } else s.mem a }

/-- Assignment `freeLists[c] = v`. -/
def setHead (s : State) (c v : Nat) : State :=
  { s with freeLists := fun i => if i = c then v else s.freeLists i }

/-! ## Operations -/

/-- Function `alignSize`: the sum is a `size_t` sum, so it is reduced modulo `2 ^ 64`. -/
def alignSize (size : Nat) : Nat :=
  if size % ALIGNMENT > 0 then (size + (ALIGNMENT - size % ALIGNMENT)) % SIZE_MOD else size

/-- Function `getClass`: the size class of the aligned size. -/
def getClass (size : Nat) : Nat :=
  let alignedSize := alignSize size
  if alignedSize ≤ 64 then 0
  else if alignedSize ≤ 256 then 1
  else if alignedSize ≤ 1024 then 2
  else 3

/-- Function `insertBlock`: push `block` on the head of the list of its class. -/
def insertBlock (s : State) (block : Nat) : State :=
  let cls := getClass (s.mem block).size
  let s1 := setNext s block (s.freeLists cls)
  let s2 := if s1.freeLists cls ≠ 0 then setPrev s1 (s1.freeLists cls) block else s1
  let s3 := setPrev s2 block 0
  setHead s3 cls block

/-- Function `initPool(size)`; `base` is the address returned by `new unsigned char[size]`. -/
def initPool (s : State) (base size : Nat) : State :=
  let pool : PoolHeader := { base := base, firstBlock := base }
  let s1 := setSize s pool.firstBlock ((size + SIZE_MOD - HEADER_SIZE) % SIZE_MOD)
  let s2 := setFree s1 pool.firstBlock true
  let s3 := setNext s2 pool.firstBlock 0
  let s4 := setPrev s3 pool.firstBlock 0
  let s5 := { s4 with poolList := pool :: s4.poolList }
  insertBlock s5 pool.firstBlock

/-- Function `splitAndAllocate`: returns the payload address and the new state. -/
def splitAndAllocate (s : State) (block size : Nat) : Nat × State :=
  let alignedSize := alignSize size
  let totalSize := (alignedSize + HEADER_SIZE) % SIZE_MOD
  let s1 :=
    if (s.mem block).size ≥ (totalSize + HEADER_SIZE + ALIGNMENT) % SIZE_MOD then
      let newBlock := block + totalSize
      let t1 := setSize s newBlock (((s.mem block).size + SIZE_MOD - totalSize) % SIZE_MOD)
      let t2 := setFree t1 newBlock true
      let t3 := setNext t2 newBlock 0
      let t4 := setPrev t3 newBlock 0
      let t5 := insertBlock t4 newBlock
      setSize t5 block alignedSize
    else s
  (block + HEADER_SIZE, setFree s1 block false)

/-- The `while (current)` loop of `findBlockInPool` on one list: `some 0` when the end of the
list is reached, `some b` for the first fitting block, `none` when the fuel runs out. -/
def scanList (s : State) (size : Nat) : Nat → Nat → Option Nat
  | 0, _ => none
  | fuel + 1, current =>
    if current = 0 then some 0
    else if (s.mem current).free && decide ((s.mem current).size ≥ size) then some current
    else scanList s size fuel (s.mem current).next

/-- The three conditional assignments under `// remove from free list`. -/
def unlink (s : State) (c current : Nat) : State :=
  let s1 := if (s.mem current).prev ≠ 0
    then setNext s (s.mem current).prev (s.mem current).next else s
  let s2 := if (s1.mem current).next ≠ 0
    then setPrev s1 (s1.mem current).next (s1.mem current).prev else s1
  if s2.freeLists c = current then setHead s2 c (s2.mem current).next else s2

/-- The `for (c = cls; c < NUM_CLASSES; c++)` loop with `k` classes left to visit. -/
def findLoop (s : State) (size fuel : Nat) : Nat → Nat → Option (Nat × State)
  | 0, _ => some (0, s)
  | k + 1, c =>
    match scanList s size fuel (s.freeLists c) with
    | none => none
    | some 0 => findLoop s size fuel k (c + 1)
    | some (b + 1) => some (b + 1, unlink s c (b + 1))

/-- Function `findBlockInPool`: the found block (`0` for `nullptr`) and the state. -/
def findBlockInPool (fuel : Nat) (s : State) (_pool : PoolHeader) (size : Nat) :
    Option (Nat × State) :=
  findLoop s size fuel (NUM_CLASSES - getClass size) (getClass size)

/-- The `while (pool)` loop of `myMalloc`: `some (some r)` when a block was found and handed
out, `some none` when every pool was tried without success. -/
def searchPools (fuel : Nat) (alignedSize : Nat) :
    State → List PoolHeader → Option (Option (Nat × State) × State)
  | s, [] => some (none, s)
  | s, pool :: rest =>
    match findBlockInPool fuel s pool alignedSize with
    | none => none
    | some (0, s1) => searchPools fuel alignedSize s1 rest
    | some (b + 1, s1) => some (some (splitAndAllocate s1 (b + 1) alignedSize), s1)

/-- Function `myMalloc`; `alloc k` is the address that `new unsigned char[POOL_SIZE]` returns
when `k` pools exist already. The fuel bounds both the recursion depth and each list scan. -/
def myMalloc (alloc : Nat → Nat) : Nat → State → Nat → Option (Nat × State)
  | 0, _, _ => none
  | fuel + 1, s, size =>
    match searchPools (fuel + 1) (alignSize size) s s.poolList with
    | none => none
    | some (some r, _) => some r
    | some (none, s1) =>
      myMalloc alloc fuel (initPool s1 (alloc s1.poolList.length) POOL_SIZE) size

/-- The block that remains after the forward step of `myFree`. -/
def forwardCoalesce (s : State) (bound block : Nat) : State :=
  let next := block + HEADER_SIZE + (s.mem block).size
  if next < bound ∧ (s.mem next).free = true then
    let s1 := setSize s block
      (((s.mem block).size + (HEADER_SIZE + (s.mem next).size) % SIZE_MOD) % SIZE_MOD)
    let s2 := setNext s1 block (s1.mem next).next
    if (s2.mem next).next ≠ 0 then setPrev s2 (s2.mem next).next block else s2
  else s

/-- The backward step of `myFree`: the state and the block that is inserted afterwards. -/
def backwardCoalesce (s : State) (block : Nat) : State × Nat :=
  if (s.mem block).prev ≠ 0 ∧ (s.mem (s.mem block).prev).free = true then
    let prev := (s.mem block).prev
    let s1 := setSize s prev
      (((s.mem prev).size + (HEADER_SIZE + (s.mem block).size) % SIZE_MOD) % SIZE_MOD)
    let s2 := setNext s1 prev (s1.mem block).next
    let s3 := if (s2.mem block).next ≠ 0 then setPrev s2 (s2.mem block).next prev else s2
    (s3, prev)
  else (s, block)

/-- Function `myFree`; `none` when `poolList` is dereferenced while it is `nullptr`. -/
def myFree (s : State) (ptr : Nat) : Option State :=
  if ptr = 0 then some s
  else
    let block := ptr - HEADER_SIZE
    let s1 := setFree s block true
    match s1.poolList with
    | [] => none
    | pool :: _ =>
      let s2 := forwardCoalesce s1 (pool.base + POOL_SIZE) block
      let r := backwardCoalesce s2 block
      some (insertBlock r.1 r.2)

/-- The inner loop of `displayAllPools`: the blocks of the pool at `base` in memory order,
each with its address, followed by the address at which the walk stops. -/
def walkFrom (s : State) (base : Nat) : Nat → Nat → List (Nat × BlockHeader) × Nat
  | 0, current => ([], current)
  | fuel + 1, current =>
    if current < base + POOL_SIZE then
      let r := walkFrom s base fuel (current + HEADER_SIZE + (s.mem current).size)
      ((current, s.mem current) :: r.1, r.2)
    else ([], current)

/-! ## Call sequences -/

/-- One call of the public interface: `myMalloc(size)`, or `myFree` of the pointer returned by
the `i`-th call of `myMalloc` (counted from `0`). -/
inductive Op where
  | malloc (size : Nat)
  | free (i : Nat)

/-- An allocator state together with the pointers returned so far (oldest first) and the
pointers that were returned and not freed since. -/
structure Run where
  state : State
  hist : List Nat
  live : List Nat

/-- One call. A `malloc` takes a `size_t` argument; a `free` is valid when its pointer is
live. Invalid calls and calls that do not return give `none`. -/
def step (alloc : Nat → Nat) (fuel : Nat) (r : Run) : Op → Option Run
  | .malloc size =>
    if size < SIZE_MOD then
      (myMalloc alloc fuel r.state size).map fun x =>
        { state := x.2, hist := r.hist ++ [x.1], live := x.1 :: r.live }
    else none
  | .free i =>
    match r.hist.get? i with
    | none => none
    | some p =>
      if p ∈ r.live then
        (myFree r.state p).map fun s => { state := s, hist := r.hist, live := r.live.erase p }
      else none

/-- A sequence of calls. -/
def run (alloc : Nat → Nat) (fuel : Nat) : List Op → Run → Option Run
  | [], r => some r
  | op :: ops, r => (step alloc fuel r op).bind (run alloc fuel ops)

/-- A sequence of calls made after `initPool()` at program start. -/
def exec (alloc : Nat → Nat) (fuel : Nat) (ops : List Op) : Option Run :=
  run alloc fuel ops
    { state := initPool State.start (alloc 0) POOL_SIZE, hist := [], live := [] }

/-- The report of `displayAllPools` for the pool at `base`: address, size and free flag of
each block in memory order. -/
def blocksOf (s : State) (base : Nat) : List (Nat × Nat × Bool) :=
  (walkFrom s base 64 base).1.map fun x => (x.1, x.2.size, x.2.free)

/-- Pool bases handed out at increasing addresses, 2 MiB apart. -/
def risingAlloc (k : Nat) : Nat := 0x10000000 + k * 0x200000

/-- Pool bases handed out at decreasing addresses, 2 MiB apart. -/
def fallingAlloc (k : Nat) : Nat := 0x30000000 - k * 0x200000

/-- The addresses linked from a list head through `next`, at most `fuel` of them. -/
def chainFrom (s : State) : Nat → Nat → List Nat
  | 0, _ => []
  | fuel + 1, current =>
    if current = 0 then [] else current :: chainFrom s fuel (s.mem current).next

/-- The four free lists as lists of addresses (each cut after eight entries). -/
def freeChains (s : State) : List (List Nat) :=
  (List.range NUM_CLASSES).map fun c => chainFrom s 8 (s.freeLists c)

/-- The call sequence of `main`: five allocations, then the releases of `p1`, `p2`, `p3`. -/
def demoOps : List Op :=
  [.malloc 900000, .malloc 200000, .malloc 40, .malloc 200, .malloc 800,
   .free 2, .free 3, .free 4]

/-- Two neighbouring blocks, released in allocation order. -/
def pairOps : List Op := [.malloc 16, .malloc 16, .free 0, .free 1]

/-- A 64-byte block `A` at the pool start, a block filling the middle of the pool, a last block
`C` that ends with the pool; `A` and `C` are released, `A` is allocated again and released. -/
def staleOps : List Op :=
  [.malloc 64, .malloc 1048368, .malloc 16, .free 0, .free 2, .malloc 64, .free 3]

/-- One allocation and its release. -/
def singleOps : List Op := [.malloc 16, .free 0]

/-- Blocks of 64, 48 and 16 bytes; the second and the first are released, then 64 bytes are
allocated and released again. -/
def loopOps : List Op :=
  [.malloc 64, .malloc 48, .malloc 16, .free 1, .free 0, .malloc 64, .free 3]

/-- The first two allocations of `main`, then the release of the first one. -/
def twoPoolOps : List Op := [.malloc 900000, .malloc 200000, .free 0]

/-! ## Well-formed free lists -/

/-- The list `l` is the chain of non-null addresses that leads from `current` through the
`next` links to `nullptr`; a list head with such a chain is acyclic. -/
def isChain (s : State) : Nat → List Nat → Bool
  | current, [] => current == 0
  | current, x :: xs => current == x && x != 0 && isChain s (s.mem x).next xs

/-- The test of `findBlockInPool`: `b->free && b->size >= size`. -/
def fits (s : State) (size b : Nat) : Bool :=
  (s.mem b).free && decide (size ≤ (s.mem b).size)

/-- The state after `loopOps`. -/
def afterLoopOps : State :=
  ((exec risingAlloc 4 loopOps).map Run.state).getD State.start

/-! ## Further call sequences -/

/-- A 64-byte block at the pool start is allocated, released while its neighbour is in use,
and found again by a request of 16 bytes. -/
def thresholdOps : List Op := [.malloc 64, .malloc 16, .free 0, .malloc 16]

/-- One allocation and its release, then a request for the whole pool and a small request. -/
def overlapOps : List Op := [.malloc 16, .free 0, .malloc 1048544, .malloc 16]

/-- One allocation, its release and the same allocation again. -/
def cycleOps : List Op := [.malloc 16, .free 0, .malloc 16]

/-- The state after `cycleOps`. -/
def afterCycleOps : State :=
  ((exec risingAlloc 4 cycleOps).map Run.state).getD State.start

/-- The list `l` is the chain from `current` to `nullptr` as in `isChain`, and the `prev` link
of each entry is its predecessor in the chain, `prev` for the first entry. -/
def isDChain (s : State) : Nat → Nat → List Nat → Bool
  | _, current, [] => current == 0
  | prev, current, x :: xs =>
    current == x && x != 0 && (s.mem x).prev == prev && isDChain s x (s.mem x).next xs

/-- The lists of `k` classes from class `c` on, one after the other. -/
def classLists (ls : Nat → List Nat) : Nat → Nat → List Nat
  | 0, _ => []
  | k + 1, c => ls c ++ classLists ls k (c + 1)

/-- The state after `initPool()`, `myMalloc(64)`, `myMalloc(16)` and the release of the first
block: list 0 holds the block of 64 bytes, list 3 the rest of the pool. -/
def afterThresholdFree : State :=
  ((exec risingAlloc 4 [.malloc 64, .malloc 16, .free 0]).map Run.state).getD State.start

/-- The free lists of `afterThresholdFree`. -/
def thresholdLists (c : Nat) : List Nat :=
  if c = 0 then [268435456] else if c = 3 then [268435600] else []

/-! ## Raw storage

The header view above keeps one record per header address. In storage a header is 32 bytes (LP64,
little endian): `size` in bytes 0 to 7, `free` in byte 8, `next` in bytes 16 to 23, `prev` in
bytes 24 to 31; bytes 9 to 15 are padding. Two headers less than 32 bytes apart share bytes.
The definitions of this section repeat the functions of `src/code.cpp` over the bytes
themselves, so that stores to one header are seen by the loads of every header that overlaps
it. -/

namespace Bytes

/-- Allocator state over raw storage: `mem a` is the byte stored at address `a`, `none` while
nothing was stored there (the storage returned by `new unsigned char[size]` is indeterminate);
`poolList` and `freeLists` are the two globals. -/
structure State where
  mem : Nat → Option Nat
  poolList : List PoolHeader
  freeLists : Nat → Nat

/-- State at program start: `poolList = nullptr`, `freeLists = {nullptr}`, nothing stored. -/
def State.start : State :=
  { mem := fun _ => none
    poolList := []
    freeLists := fun _ => 0 }

/-- Load of one byte; addresses are 64-bit values; `none` when the byte is indeterminate. -/
def load8 (s : State) (a : Nat) : Option Nat :=
  (s.mem (a % SIZE_MOD)).map fun v => v % 256

/-- Store of one byte. -/
def store8 (s : State) (a v : Nat) : State :=
  { s with mem := fun x => if x = a % SIZE_MOD then some (v % 256) else s.mem x }

/-- Load of an 8-byte little-endian word (`size_t` or a pointer). -/
def load64 (s : State) (a : Nat) : Option Nat :=
  (load8 s a).bind fun b0 => (load8 s (a + 1)).bind fun b1 =>
  (load8 s (a + 2)).bind fun b2 => (load8 s (a + 3)).bind fun b3 =>
  (load8 s (a + 4)).bind fun b4 => (load8 s (a + 5)).bind fun b5 =>
  (load8 s (a + 6)).bind fun b6 => (load8 s (a + 7)).bind fun b7 =>
  some (b0 + 256 * (b1 + 256 * (b2 + 256 * (b3 + 256 * (b4 + 256 * (b5 + 256 * (b6 + 256 * b7)))))))

/-- Store of an 8-byte little-endian word. -/
def store64 (s : State) (a v : Nat) : State :=
  store8 (store8 (store8 (store8 (store8 (store8 (store8 (store8 s
    a v) (a + 1) (v / 2 ^ 8)) (a + 2) (v / 2 ^ 16)) (a + 3) (v / 2 ^ 24))
    (a + 4) (v / 2 ^ 32)) (a + 5) (v / 2 ^ 40)) (a + 6) (v / 2 ^ 48)) (a + 7) (v / 2 ^ 56)

/-- Load `b->size` (offset 0). -/
def State.size (s : State) (b : Nat) : Option Nat := load64 s b

/-- Load `b->free` (offset 8, one byte); the compiled test of a `bool` object compares its
byte with 0, so every other value reads as `true`. -/
def State.free (s : State) (b : Nat) : Option Bool :=
  (load8 s (b + 8)).map fun v => decide (v ≠ 0)

/-- Load `b->next` (offset 16). -/
def State.next (s : State) (b : Nat) : Option Nat := load64 s (b + 16)

/-- Load `b->prev` (offset 24). -/
def State.prev (s : State) (b : Nat) : Option Nat := load64 s (b + 24)

/-- Assignment `b->size = v`. -/
def setSize (s : State) (b v : Nat) : State := store64 s b v

/-- Assignment `b->free = v`. -/
def setFree (s : State) (b : Nat) (v : Bool) : State := store8 s (b + 8) (if v then 1 else 0)

/-- Assignment `b->next = v`. -/
def setNext (s : State) (b v : Nat) : State := store64 s (b + 16) v

/-- Assignment `b->prev = v`. -/
def setPrev (s : State) (b v : Nat) : State := store64 s (b + 24) v

/-- Assignment `freeLists[c] = v`. -/
def setHead (s : State) (c v : Nat) : State :=
  { s with freeLists := fun i => if i = c then v else s.freeLists i }

/-- Function `insertBlock`. -/
def insertBlock (s : State) (block : Nat) : Option State :=
  (s.size block).bind fun sz =>
    let cls := getClass sz
    let s1 := setNext s block (s.freeLists cls)
    let s2 := if s1.freeLists cls ≠ 0 then setPrev s1 (s1.freeLists cls) block else s1
    let s3 := setPrev s2 block 0
    some (setHead s3 cls block)

/-- Function `initPool(size)`; `base` is the address returned by `new unsigned char[size]`. -/
def initPool (s : State) (base size : Nat) : Option State :=
  let pool : PoolHeader := { base := base, firstBlock := base }
  let s1 := setSize s pool.firstBlock ((size + SIZE_MOD - HEADER_SIZE) % SIZE_MOD)
  let s2 := setFree s1 pool.firstBlock true
  let s3 := setNext s2 pool.firstBlock 0
  let s4 := setPrev s3 pool.firstBlock 0
  let s5 := { s4 with poolList := pool :: s4.poolList }
  insertBlock s5 pool.firstBlock

/-- Function `splitAndAllocate`: the payload address and the new state. -/
def splitAndAllocate (s : State) (block size : Nat) : Option (Nat × State) :=
  let alignedSize := alignSize size
  let totalSize := (alignedSize + HEADER_SIZE) % SIZE_MOD
  (s.size block).bind fun blockSize =>
    let s1 :=
      if blockSize ≥ (totalSize + HEADER_SIZE + ALIGNMENT) % SIZE_MOD then
        let newBlock := (block + totalSize) % SIZE_MOD
        let t1 := setSize s newBlock ((blockSize + SIZE_MOD - totalSize) % SIZE_MOD)
        let t2 := setFree t1 newBlock true
        let t3 := setNext t2 newBlock 0
        let t4 := setPrev t3 newBlock 0
        (insertBlock t4 newBlock).map fun t5 => setSize t5 block alignedSize
      else some s
    s1.map fun s2 => ((block + HEADER_SIZE) % SIZE_MOD, setFree s2 block false)

/-- The test `current->free && current->size >= size`; the size is loaded only when the flag
is set. -/
def fits (s : State) (size b : Nat) : Option Bool :=
  (s.free b).bind fun f => if f then (s.size b).map fun sz => decide (size ≤ sz) else some false

/-- The `while (current)` loop of `findBlockInPool` on one list: `some 0` at the end of the
list, `some b` for the first fitting block, `none` when the fuel runs out or an indeterminate
byte is loaded. -/
def scanList (s : State) (size : Nat) : Nat → Nat → Option Nat
  | 0, _ => none
  | fuel + 1, current =>
    if current = 0 then some 0
    else (fits s size current).bind fun f =>
      if f then some current
      else (s.next current).bind fun n => scanList s size fuel n

/-- The three conditional assignments under `// remove from free list`. -/
def unlink (s : State) (c current : Nat) : Option State :=
  (s.prev current).bind fun p =>
  (if p ≠ 0 then (s.next current).map fun n => setNext s p n else some s).bind fun s1 =>
  (s1.next current).bind fun n1 =>
  (if n1 ≠ 0 then (s1.prev current).map fun p1 => setPrev s1 n1 p1 else some s1).bind fun s2 =>
  if s2.freeLists c = current then (s2.next current).map fun n2 => setHead s2 c n2 else some s2

/-- The `for (c = cls; c < NUM_CLASSES; c++)` loop with `k` classes left to visit. -/
def findLoop (s : State) (size fuel : Nat) : Nat → Nat → Option (Nat × State)
  | 0, _ => some (0, s)
  | k + 1, c =>
    match scanList s size fuel (s.freeLists c) with
    | none => none
    | some 0 => findLoop s size fuel k (c + 1)
    | some (b + 1) => (unlink s c (b + 1)).map fun s1 => (b + 1, s1)

/-- Function `findBlockInPool`: the found block (`0` for `nullptr`) and the state. -/
def findBlockInPool (fuel : Nat) (s : State) (_pool : PoolHeader) (size : Nat) :
    Option (Nat × State) :=
  findLoop s size fuel (NUM_CLASSES - getClass size) (getClass size)

/-- The `while (pool)` loop of `myMalloc`: `some (some r)` when a block was found and handed
out, `some none` when every pool was tried without success. -/
def searchPools (fuel : Nat) (alignedSize : Nat) :
    State → List PoolHeader → Option (Option (Nat × State) × State)
  | s, [] => some (none, s)
  | s, pool :: rest =>
    match findBlockInPool fuel s pool alignedSize with
    | none => none
    | some (0, s1) => searchPools fuel alignedSize s1 rest
    | some (b + 1, s1) => (splitAndAllocate s1 (b + 1) alignedSize).map fun r => (some r, s1)

/-- Function `myMalloc`; `alloc k` is the address that `new unsigned char[POOL_SIZE]` returns
when `k` pools exist already. The fuel bounds both the recursion depth and each list scan. -/
def myMalloc (alloc : Nat → Nat) : Nat → State → Nat → Option (Nat × State)
  | 0, _, _ => none
  | fuel + 1, s, size =>
    match searchPools (fuel + 1) (alignSize size) s s.poolList with
    | none => none
    | some (some r, _) => some r
    | some (none, s1) =>
      (initPool s1 (alloc s1.poolList.length) POOL_SIZE).bind fun s2 => myMalloc alloc fuel s2 size

/-- The forward step of `myFree`. -/
def forwardCoalesce (s : State) (bound block : Nat) : Option State :=
  (s.size block).bind fun blockSize =>
    let next := (block + HEADER_SIZE + blockSize) % SIZE_MOD
    (if next < bound then s.free next else some false).bind fun f =>
      if f then
        (s.size next).bind fun nextSize =>
          let s1 := setSize s block ((blockSize + (HEADER_SIZE + nextSize) % SIZE_MOD) % SIZE_MOD)
          (s1.next next).bind fun n =>
            let s2 := setNext s1 block n
            (s2.next next).bind fun n2 =>
              if n2 ≠ 0 then some (setPrev s2 n2 block) else some s2
      else some s

/-- The backward step of `myFree`: the state and the block that is inserted afterwards. -/
def backwardCoalesce (s : State) (block : Nat) : Option (State × Nat) :=
  (s.prev block).bind fun p =>
  (if p ≠ 0 then s.free p else some false).bind fun f =>
    if f then
      (s.size p).bind fun prevSize => (s.size block).bind fun blockSize =>
        let s1 := setSize s p ((prevSize + (HEADER_SIZE + blockSize) % SIZE_MOD) % SIZE_MOD)
        (s1.next block).bind fun n =>
          let s2 := setNext s1 p n
          (s2.next block).bind fun n2 =>
            if n2 ≠ 0 then some (setPrev s2 n2 p, p) else some (s2, p)
    else some (s, block)

/-- Function `myFree`; `none` when `poolList` is dereferenced while it is `nullptr` or an
indeterminate byte is loaded. -/
def myFree (s : State) (ptr : Nat) : Option State :=
  if ptr = 0 then some s
  else
    let block := (ptr + SIZE_MOD - HEADER_SIZE) % SIZE_MOD
    let s1 := setFree s block true
    match s1.poolList with
    | [] => none
    | pool :: _ =>
      (forwardCoalesce s1 ((pool.base + POOL_SIZE) % SIZE_MOD) block).bind fun s2 =>
        (backwardCoalesce s2 block).bind fun r => insertBlock r.1 r.2

/-- An allocator state together with the pointers returned so far (oldest first) and the
pointers that were returned and not freed since. -/
structure Run where
  state : State
  hist : List Nat
  live : List Nat

/-- One call. A `malloc` takes a `size_t` argument; a `free` is valid when its pointer is
live. Invalid calls and calls without a defined result give `none`. -/
def step (alloc : Nat → Nat) (fuel : Nat) (r : Run) : Op → Option Run
  | .malloc size =>
    if size < SIZE_MOD then
      (myMalloc alloc fuel r.state size).map fun x =>
        { state := x.2, hist := r.hist ++ [x.1], live := x.1 :: r.live }
    else none
  | .free i =>
    match r.hist.get? i with
    | none => none
    | some p =>
      if p ∈ r.live then
        (myFree r.state p).map fun s => { state := s, hist := r.hist, live := r.live.erase p }
      else none

/-- A sequence of calls. -/
def run (alloc : Nat → Nat) (fuel : Nat) : List Op → Run → Option Run
  | [], r => some r
  | op :: ops, r => (step alloc fuel r op).bind (run alloc fuel ops)

/-- A sequence of calls made after `initPool()` at program start. -/
def exec (alloc : Nat → Nat) (fuel : Nat) (ops : List Op) : Option Run :=
  (initPool State.start (alloc 0) POOL_SIZE).bind fun s =>
    run alloc fuel ops { state := s, hist := [], live := [] }

/-- The inner loop of `displayAllPools` for the pool at `base`: address, size and free flag of
each block in memory order; `none` when the walk is not over after `fuel` blocks or loads an
indeterminate byte. -/
def walkFrom (s : State) (base : Nat) : Nat → Nat → Option (List (Nat × Nat × Bool))
  | 0, _ => none
  | fuel + 1, current =>
    if current < (base + POOL_SIZE) % SIZE_MOD then
      (s.size current).bind fun sz => (s.free current).bind fun f =>
        (walkFrom s base fuel ((current + HEADER_SIZE + sz) % SIZE_MOD)).map fun r =>
          (current, sz, f) :: r
    else some []

/-- The header stored at `b`, field by field. -/
def header (s : State) (b : Nat) : Option BlockHeader :=
  (s.size b).bind fun sz => (s.free b).bind fun f => (s.next b).bind fun n =>
    (s.prev b).map fun p => { size := sz, free := f, next := n, prev := p }

/-- The report of `displayAllPools` for the pool at `base`. -/
def blocksOf (s : State) (base : Nat) : Option (List (Nat × Nat × Bool)) :=
  walkFrom s base 64 base

/-- The addresses linked from `current` through `next` up to `nullptr`; `none` when `nullptr`
is not reached within `fuel` links or an indeterminate byte is loaded. A list with a chain is
acyclic. -/
def chainFrom (s : State) : Nat → Nat → Option (List Nat)
  | 0, _ => none
  | fuel + 1, current =>
    if current = 0 then some []
    else (s.next current).bind fun n => (chainFrom s fuel n).map fun l => current :: l

/-- The four free lists as chains of addresses. -/
def freeChains (s : State) : List (Option (List Nat)) :=
  (List.range NUM_CLASSES).map fun c => chainFrom s 8 (s.freeLists c)

/-- The state that a sequence of calls made after `initPool()` leaves. -/
def stateAfter (alloc : Nat → Nat) (ops : List Op) : State :=
  ((exec alloc 8 ops).map Run.state).getD State.start

/-- The state after `k` rounds of `initPool()` made by the retry of `myMalloc`. -/
def grow (alloc : Nat → Nat) : Nat → State → Option State
  | 0, s => some s
  | k + 1, s => (initPool s (alloc s.poolList.length) POOL_SIZE).bind (grow alloc k)

/-- The byte ranges `[a, a + m)` and `[b, b + n)` of the 64-bit address space share no byte. -/
def Apart (a m b n : Nat) : Prop :=
  ∀ i, i < m → ∀ j, j < n → (a + i) % SIZE_MOD ≠ (b + j) % SIZE_MOD

end Bytes

/-- Pool bases 16 bytes behind a 2 MiB boundary, 2 MiB apart: the addresses that a page-aligned
mapping with a 16-byte allocation header in front of the array gives. -/
def mappedAlloc (k : Nat) : Nat := 0x10000010 + k * 0x200000

/-- A block of 272 bytes is allocated and released; two requests of 900000 bytes with one of
288 bytes between them follow; the first large block is released, 288 bytes are allocated, the
second large block is released and 288 bytes are allocated again. -/
def misalignOps : List Op :=
  [.malloc 272, .free 0, .malloc 900000, .malloc 288, .malloc 900000, .free 1, .malloc 288,
   .free 3, .malloc 288]

/-- Three blocks of 208, 128 and 16 bytes are allocated and released (second, third, first);
then 192 bytes and 128 bytes are allocated and released in turn and 192 bytes are allocated
again. -/
def exhaustOps : List Op :=
  [.malloc 208, .malloc 128, .malloc 16, .free 1, .free 2, .free 0, .malloc 192, .free 3,
   .malloc 128, .free 4, .malloc 192]

/-- A block of 224 bytes is allocated and released, the whole pool and then 16 bytes are
requested, the pool-sized block is released and 208 bytes are allocated. -/
def poolOps : List Op :=
  [.malloc 224, .free 0, .malloc 1048544, .malloc 16, .free 1, .malloc 208]

/-- A block of 208 bytes is allocated and released, then 224 bytes are allocated. -/
def shiftOps : List Op := [.malloc 208, .free 0, .malloc 224]

/-- A block of 1040 bytes is allocated and released, 1024 and 16 bytes are allocated, both are
released (the later one first) and 16 bytes are allocated again. -/
def reuseOps : List Op :=
  [.malloc 1040, .free 0, .malloc 1024, .malloc 16, .free 2, .free 1, .malloc 16]

/-- A block of 1040 bytes is allocated and released, then 1024 bytes are allocated. -/
def staleSizeOps : List Op := [.malloc 1040, .free 0, .malloc 1024]

/-! # Theorems -/

/-! ## Field lemmas -/

section fields
variable (s : State) (b v a c : Nat) (f : Bool)

@[simp] theorem setSize_size : ((setSize s b v).mem a).size = if a = b then v else (s.mem a).size := by
  unfold setSize; by_cases h : a = b <;> simp [h]
@[simp] theorem setSize_free : ((setSize s b v).mem a).free = (s.mem a).free := by
  unfold setSize; by_cases h : a = b <;> simp [h]
@[simp] theorem setSize_next : ((setSize s b v).mem a).next = (s.mem a).next := by
  unfold setSize; by_cases h : a = b <;> simp [h]
@[simp] theorem setSize_prev : ((setSize s b v).mem a).prev = (s.mem a).prev := by
  unfold setSize; by_cases h : a = b <;> simp [h]
@[simp] theorem setFree_size : ((setFree s b f).mem a).size = (s.mem a).size := by
  unfold setFree; by_cases h : a = b <;> simp [h]
@[simp] theorem setFree_free : ((setFree s b f).mem a).free = if a = b then f else (s.mem a).free := by
  unfold setFree; by_cases h : a = b <;> simp [h]
@[simp] theorem setFree_next : ((setFree s b f).mem a).next = (s.mem a).next := by
  unfold setFree; by_cases h : a = b <;> simp [h]
@[simp] theorem setFree_prev : ((setFree s b f).mem a).prev = (s.mem a).prev := by
  unfold setFree; by_cases h : a = b <;> simp [h]
@[simp] theorem setNext_size : ((setNext s b v).mem a).size = (s.mem a).size := by
  unfold setNext; by_cases h : a = b <;> simp [h]
@[simp] theorem setNext_free : ((setNext s b v).mem a).free = (s.mem a).free := by
  unfold setNext; by_cases h : a = b <;> simp [h]
@[simp] theorem setNext_next : ((setNext s b v).mem a).next = if a = b then v else (s.mem a).next := by
  unfold setNext; by_cases h : a = b <;> simp [h]
@[simp] theorem setNext_prev : ((setNext s b v).mem a).prev = (s.mem a).prev := by
  unfold setNext; by_cases h : a = b <;> simp [h]
@[simp] theorem setPrev_size : ((setPrev s b v).mem a).size = (s.mem a).size := by
  unfold setPrev; by_cases h : a = b <;> simp [h]
@[simp] theorem setPrev_free : ((setPrev s b v).mem a).free = (s.mem a).free := by
  unfold setPrev; by_cases h : a = b <;> simp [h]
@[simp] theorem setPrev_next : ((setPrev s b v).mem a).next = (s.mem a).next := by
  unfold setPrev; by_cases h : a = b <;> simp [h]
@[simp] theorem setPrev_prev : ((setPrev s b v).mem a).prev = if a = b then v else (s.mem a).prev := by
  unfold setPrev; by_cases h : a = b <;> simp [h]
@[simp] theorem setHead_mem : (setHead s c v).mem = s.mem := rfl
@[simp] theorem setSize_freeLists : (setSize s b v).freeLists = s.freeLists := rfl
@[simp] theorem setFree_freeLists : (setFree s b f).freeLists = s.freeLists := rfl
@[simp] theorem setNext_freeLists : (setNext s b v).freeLists = s.freeLists := rfl
@[simp] theorem setPrev_freeLists : (setPrev s b v).freeLists = s.freeLists := rfl
@[simp] theorem setHead_freeLists :
    (setHead s c v).freeLists a = if a = c then v else s.freeLists a := rfl
@[simp] theorem setSize_poolList : (setSize s b v).poolList = s.poolList := rfl
@[simp] theorem setFree_poolList : (setFree s b f).poolList = s.poolList := rfl
@[simp] theorem setNext_poolList : (setNext s b v).poolList = s.poolList := rfl
@[simp] theorem setPrev_poolList : (setPrev s b v).poolList = s.poolList := rfl
@[simp] theorem setHead_poolList : (setHead s c v).poolList = s.poolList := rfl

end fields

/-! ## Allocation -/

theorem alignSize_mod (n : Nat) : alignSize n % 16 = 0 := by
  unfold alignSize ALIGNMENT SIZE_MOD
  split_ifs with h
  · omega
  · omega

theorem alignSize_of_mod {n : Nat} (h : n % 16 = 0) : alignSize n = n := by
  unfold alignSize ALIGNMENT
  simp [h]

theorem alignSize_idem (n : Nat) : alignSize (alignSize n) = alignSize n :=
  alignSize_of_mod (alignSize_mod n)

/-! ## Coalescing on concrete call sequences -/

theorem scanList_self_loop {s : State} {size cur : Nat} (h0 : cur ≠ 0)
    (hnext : (s.mem cur).next = cur) (hsmall : (s.mem cur).size < size) (fuel : Nat) :
    scanList s size fuel cur = none := by
  induction fuel with
  | zero => rfl
  | succ n ih =>
    unfold scanList
    have : ¬ size ≤ (s.mem cur).size := by omega
    simp [h0, this, hnext, ih]

/-- C2: after the call sequence of `main` the newer pool holds three free blocks in a row: the
blocks of 48 and 208 bytes were not merged with each other nor with the free block that
follows them. -/
theorem demo_adjacent_free_blocks :
    (exec risingAlloc 4 demoOps).map (fun r => blocksOf r.state (risingAlloc 1)) =
      some [(270532608, 200000, false), (270732640, 48, true), (270732720, 208, true),
        (270732960, 848192, true)] ∧
    270732640 + HEADER_SIZE + 48 = 270732720 ∧ 270732720 + HEADER_SIZE + 208 = 270732960 := by
  decide

/-- C3: two 16-byte blocks allocated from a fresh pool and released in allocation order leave
two free blocks in the walk of the pool, not one. -/
theorem pair_release_leaves_two_free_blocks :
    (exec risingAlloc 4 pairOps).map (fun r => blocksOf r.state (risingAlloc 0)) =
      some [(268435456, 16, true), (268435504, 1048496, true)] := by
  decide

/-- C4: after `staleOps` the last block of the pool has recorded size 144 although only 48
bytes are left before the end of the pool: the walk steps from it to an address 96 bytes
past `base + POOL_SIZE`. -/
theorem stale_prev_breaks_tiling :
    (exec risingAlloc 4 staleOps).map
        (fun r => (blocksOf r.state (risingAlloc 0),
          (walkFrom r.state (risingAlloc 0) 64 (risingAlloc 0)).2)) =
      some ([(268435456, 64, true), (268435552, 1048368, false), (269483952, 144, true)],
        269484128) ∧
    risingAlloc 0 + POOL_SIZE = 269484032 := by
  decide

/-- C5: after one allocation and its release the list of class 3 still links the absorbed
header at `base + 48`, which is no block of the pool any more; after `staleOps` the free block
at the pool start is in no list and the free block at the pool end is the head of two lists. -/
theorem free_lists_disagree_with_flags :
    (exec risingAlloc 4 singleOps).map (fun r => (blocksOf r.state (risingAlloc 0),
        freeChains r.state)) =
      some ([(268435456, 1048544, true)], [[], [], [], [268435456, 268435504]]) ∧
    (exec risingAlloc 4 staleOps).map (fun r => (blocksOf r.state (risingAlloc 0),
        freeChains r.state)) =
      some ([(268435456, 64, true), (268435552, 1048368, false), (269483952, 144, true)],
        [[269483952], [269483952], [], []]) := by
  decide

/-- C6: `loopOps` ends with `p = myMalloc(64)` and `myFree(p)`, both of which return; in the
state they leave, the list of class 0 is a one-element cycle through a 48-byte block, and
`myMalloc(64)` does not return, whatever the fuel. -/
theorem round_trip_does_not_return :
    (exec risingAlloc 4 loopOps).map (fun r => (r.hist, r.live, r.state.poolList,
        r.state.freeLists 0, r.state.mem 268435552)) =
      some ([268435488, 268435584, 268435664, 268435488], [268435664],
        [{ base := 268435456, firstBlock := 268435456 }], 268435552,
        { size := 48, free := true, next := 268435552, prev := 268435456 }) ∧
    ∀ fuel, myMalloc risingAlloc fuel afterLoopOps 64 = none := by
  refine ⟨by decide, fun fuel => ?_⟩
  have hhead : afterLoopOps.freeLists 0 = 268435552 := by decide
  have hmem : afterLoopOps.mem 268435552 =
      { size := 48, free := true, next := 268435552, prev := 268435456 } := by decide
  have hpools : afterLoopOps.poolList = [{ base := 268435456, firstBlock := 268435456 }] := by
    decide
  have hscan : ∀ n, scanList afterLoopOps 64 n (afterLoopOps.freeLists 0) = none := by
    intro n
    rw [hhead]
    exact scanList_self_loop (by decide) (by rw [hmem]) (by rw [hmem]; decide) n
  cases fuel with
  | zero => rfl
  | succ n =>
    have h64 : alignSize 64 = 64 := by decide
    have hc : getClass 64 = 0 := by decide
    unfold myMalloc
    rw [hpools, h64]
    simp [searchPools, findBlockInPool, hc, NUM_CLASSES, findLoop, hscan]

/-- C9: with the second pool at a lower address than the first, releasing the 900000-byte
block of the first pool does not absorb the free block that follows it inside that pool: the
bound in `myFree` is taken from the head of `poolList`, which is the second pool. -/
theorem forward_coalesce_uses_head_pool :
    (exec fallingAlloc 4 twoPoolOps).map (fun r => (r.state.poolList,
        blocksOf r.state (fallingAlloc 0))) =
      some ([{ base := 803209216, firstBlock := 803209216 },
          { base := 805306368, firstBlock := 805306368 }],
        [(805306368, 900000, true), (806206400, 148512, true)]) ∧
    805306368 + HEADER_SIZE + 900000 = 806206400 ∧ 806206400 < 805306368 + POOL_SIZE := by
  decide

/-- C10: `myFree(nullptr)` returns and leaves the whole allocator state as it was. -/
theorem myFree_null (s : State) : myFree s 0 = some s := rfl

/-! ## Searching well-formed lists -/

theorem isChain_cons {s : State} {cur x : Nat} {xs : List Nat}
    (h : isChain s cur (x :: xs) = true) :
    cur = x ∧ x ≠ 0 ∧ isChain s (s.mem x).next xs = true := by
  simp only [isChain, Bool.and_eq_true, beq_iff_eq, bne_iff_ne] at h
  exact ⟨h.1.1, h.1.2, h.2⟩

theorem isChain_nil {s : State} {cur : Nat} (h : isChain s cur [] = true) : cur = 0 := by
  simpa [isChain] using h

theorem isChain_unique {s : State} {cur : Nat} {l l' : List Nat}
    (h : isChain s cur l = true) (h' : isChain s cur l' = true) : l = l' := by
  induction l generalizing cur l' with
  | nil =>
    cases l' with
    | nil => rfl
    | cons y ys =>
      have h0 := isChain_nil h
      obtain ⟨h1, h2, -⟩ := isChain_cons h'
      omega
  | cons x xs ih =>
    cases l' with
    | nil =>
      have h0 := isChain_nil h'
      obtain ⟨h1, h2, -⟩ := isChain_cons h
      omega
    | cons y ys =>
      obtain ⟨h1, -, h3⟩ := isChain_cons h
      obtain ⟨h1', -, h3'⟩ := isChain_cons h'
      have hxy : x = y := by omega
      subst hxy
      rw [ih h3 h3']

/-- Scanning a chain without fitting block reaches its end. -/
theorem scanList_nofit {s : State} {size : Nat} {l : List Nat} {cur fuel : Nat}
    (hc : isChain s cur l = true) (hno : ∀ b ∈ l, fits s size b = false)
    (hfuel : l.length < fuel) : scanList s size fuel cur = some 0 := by
  induction l generalizing cur fuel with
  | nil =>
    have h0 := isChain_nil hc
    cases fuel with
    | zero => simp at hfuel
    | succ n => simp [scanList, h0]
  | cons x xs ih =>
    obtain ⟨h1, h2, h3⟩ := isChain_cons hc
    subst h1
    cases fuel with
    | zero => simp at hfuel
    | succ n =>
      have hx := hno cur (by simp)
      unfold fits at hx
      unfold scanList
      simp only [h2, if_false]
      rw [if_neg (by simpa using hx)]
      exact ih h3 (fun b hb => hno b (by simp [hb])) (by simpa using hfuel)

theorem findLoop_stop {s : State} {size fuel k c x : Nat} (hx : x ≠ 0)
    (h : scanList s size fuel (s.freeLists c) = some x) :
    findLoop s size fuel (k + 1) c = some (x, unlink s c x) := by
  obtain ⟨b, rfl⟩ := Nat.exists_eq_succ_of_ne_zero hx
  simp [findLoop, h]

theorem findLoop_continue {s : State} {size fuel k c : Nat}
    (h : scanList s size fuel (s.freeLists c) = some 0) :
    findLoop s size fuel (k + 1) c = findLoop s size fuel k (c + 1) := by
  simp [findLoop, h]

@[simp] theorem insertBlock_poolList (s : State) (b : Nat) :
    (insertBlock s b).poolList = s.poolList := by
  unfold insertBlock
  by_cases h : s.freeLists (getClass (s.mem b).size) = 0 <;> simp [h]

@[simp] theorem unlink_poolList (s : State) (c cur : Nat) :
    (unlink s c cur).poolList = s.poolList := by
  unfold unlink
  by_cases h1 : (s.mem cur).prev = 0 <;> by_cases h2 : (s.mem cur).next = 0 <;>
    simp [h1, h2] <;> split_ifs <;> simp

@[simp] theorem splitAndAllocate_poolList (s : State) (b size : Nat) :
    (splitAndAllocate s b size).2.poolList = s.poolList := by
  unfold splitAndAllocate
  simp only [setFree_poolList]
  split_ifs <;> simp

theorem getClass_lt (n : Nat) : getClass n < NUM_CLASSES := by
  unfold getClass NUM_CLASSES
  simp only
  split_ifs <;> omega

/-! ## Size classes and alignment -/

/-- C12: the class of a size is decided by its aligned size with the bounds 64, 256 and 1024,
it is always below `NUM_CLASSES`, and the boundary values 64, 65, 256, 1024 and 1025 fall in
the classes 0, 1, 1, 2 and 3. -/
theorem getClass_bands (s : Nat) :
    (alignSize s ≤ 64 → getClass s = 0) ∧
    (64 < alignSize s → alignSize s ≤ 256 → getClass s = 1) ∧
    (256 < alignSize s → alignSize s ≤ 1024 → getClass s = 2) ∧
    (1024 < alignSize s → getClass s = 3) ∧
    getClass s < NUM_CLASSES ∧
    getClass 64 = 0 ∧ getClass 65 = 1 ∧ getClass 256 = 1 ∧ getClass 1024 = 2 ∧
    getClass 1025 = 3 := by
  refine ⟨?_, ?_, ?_, ?_, getClass_lt s, by decide, by decide, by decide, by decide,
    by decide⟩
  all_goals
    unfold getClass
    simp only
    intros
    split_ifs <;> omega

theorem alignSize_nowrap {s : Nat} (h : s ≤ SIZE_MOD - ALIGNMENT) :
    alignSize s = (s + 15) / 16 * 16 := by
  unfold alignSize SIZE_MOD ALIGNMENT at *
  split_ifs <;> omega

/-- C13 (amended): on sizes whose alignment does not wrap, that is up to `2^64 - 16`, the
size class is monotonic. -/
theorem getClass_mono (s t : Nat) (hst : s ≤ t) (ht : t ≤ SIZE_MOD - ALIGNMENT) :
    getClass s ≤ getClass t := by
  have hs := alignSize_nowrap (le_trans hst ht)
  have ht' := alignSize_nowrap ht
  unfold getClass
  simp only
  rw [hs, ht']
  split_ifs <;> omega

/-- C13 witness: the sizes 64 and 65. -/
theorem getClass_mono_witness : getClass 64 ≤ getClass 65 :=
  getClass_mono 64 65 (by decide) (by decide)

/-- C13 counterexample: `1025 ≤ 2^64 - 1` are both `size_t` values, yet the class drops from
3 to 0, because the sum in `alignSize (2^64 - 1)` wraps to `0`. -/
theorem getClass_not_mono_at_wrap :
    1025 ≤ 2 ^ 64 - 1 ∧ 2 ^ 64 - 1 < SIZE_MOD ∧ getClass 1025 = 3 ∧
      getClass (2 ^ 64 - 1) = 0 ∧ ¬ getClass 1025 ≤ getClass (2 ^ 64 - 1) := by
  decide

/-- C14 (amended): for a size up to `2^64 - 16`, `alignSize` returns the smallest multiple of
16 that is not below the size; it is less than 16 above the size and equal to it when the
size is a multiple of 16. -/
theorem alignSize_round_up (s : Nat) (hs : s ≤ SIZE_MOD - ALIGNMENT) :
    alignSize s % ALIGNMENT = 0 ∧ s ≤ alignSize s ∧ alignSize s < s + ALIGNMENT ∧
    (∀ m, m % ALIGNMENT = 0 → s ≤ m → alignSize s ≤ m) ∧
    (s % ALIGNMENT = 0 → alignSize s = s) := by
  rw [alignSize_nowrap hs]
  unfold ALIGNMENT
  refine ⟨by omega, by omega, by omega, fun m hm hsm => by omega, fun h => by omega⟩

/-- C14 witness: the size 65 is rounded up to 80. -/
theorem alignSize_round_up_witness :
    alignSize 65 % ALIGNMENT = 0 ∧ 65 ≤ alignSize 65 ∧ alignSize 65 < 65 + ALIGNMENT ∧
    (∀ m, m % ALIGNMENT = 0 → 65 ≤ m → alignSize 65 ≤ m) ∧
    (65 % ALIGNMENT = 0 → alignSize 65 = 65) :=
  alignSize_round_up 65 (by decide)

/-- C14 counterexample: for the `size_t` value `2^64 - 1` the sum wraps and `alignSize`
returns `0`, which is below the size. -/
theorem alignSize_wraps :
    2 ^ 64 - 1 < SIZE_MOD ∧ alignSize (2 ^ 64 - 1) = 0 ∧
      ¬ (2 ^ 64 - 1 ≤ alignSize (2 ^ 64 - 1)) := by
  decide

/-! ## Stale headers in the free lists -/

theorem isChain_self_loop {s : State} {cur : Nat} (h0 : cur ≠ 0)
    (hnext : (s.mem cur).next = cur) (l : List Nat) : isChain s cur l = false := by
  induction l with
  | nil => simp [isChain, h0]
  | cons x xs ih =>
    by_cases hx : cur = x
    · subst hx
      simp [isChain, hnext, ih]
    · simp [isChain, hx]

/-- C19: after `overlapOps` two pointers are live: the second result, whose block at the pool
start has recorded size 1048544, and the third result, which lies inside the payload of the
second; the third block is the header at `base + 48` that the release had absorbed. -/
theorem live_allocations_overlap :
    (exec risingAlloc 4 overlapOps).map (fun r => (r.hist, r.live,
        (r.state.mem (268435488 - HEADER_SIZE)).size,
        (r.state.mem (268435536 - HEADER_SIZE)).size,
        (r.state.mem (268435488 - HEADER_SIZE)).free,
        (r.state.mem (268435536 - HEADER_SIZE)).free)) =
      some ([268435488, 268435488, 268435536], [268435536, 268435488], 1048544, 16,
        false, false) ∧
    268435488 ≤ 268435536 ∧ 268435536 + 16 ≤ 268435488 + 1048544 := by
  decide

/-- C20: after `cycleOps` (an allocation, its release, the same allocation again) the list of
class 3 is a one-element cycle: its head at `base + 48` is its own successor, no finite chain
leads from the head to `nullptr`, and `myMalloc(1048544)`, a request that fits in one pool,
does not return, whatever the fuel. -/
theorem free_list_cycle_after_reuse :
    (exec risingAlloc 4 cycleOps).map (fun r => (r.hist, r.live, r.state.poolList,
        r.state.freeLists 3, r.state.mem 268435504)) =
      some ([268435488, 268435488], [268435488],
        [{ base := 268435456, firstBlock := 268435456 }], 268435504,
        { size := 1048496, free := true, next := 268435504, prev := 0 }) ∧
    (∀ l, isChain afterCycleOps (afterCycleOps.freeLists 3) l = false) ∧
    alignSize 1048544 ≤ POOL_SIZE - HEADER_SIZE ∧
    ∀ fuel, myMalloc risingAlloc fuel afterCycleOps 1048544 = none := by
  have hhead : afterCycleOps.freeLists 3 = 268435504 := by decide
  have hmem : afterCycleOps.mem 268435504 =
      { size := 1048496, free := true, next := 268435504, prev := 0 } := by decide
  have hpools : afterCycleOps.poolList = [{ base := 268435456, firstBlock := 268435456 }] := by
    decide
  refine ⟨by decide, fun l => ?_, by decide, fun fuel => ?_⟩
  · rw [hhead]
    exact isChain_self_loop (by decide) (by rw [hmem]) l
  · have hscan : ∀ n, scanList afterCycleOps 1048544 n (afterCycleOps.freeLists 3) = none := by
      intro n
      rw [hhead]
      exact scanList_self_loop (by decide) (by rw [hmem]) (by rw [hmem]; decide) n
    cases fuel with
    | zero => rfl
    | succ n =>
      have ha : alignSize 1048544 = 1048544 := by decide
      have hc : getClass 1048544 = 3 := by decide
      unfold myMalloc
      rw [hpools, ha]
      simp [searchPools, findBlockInPool, hc, NUM_CLASSES, findLoop, hscan]

/-! ## First fit -/

theorem isDChain_cons {s : State} {prv cur x : Nat} {xs : List Nat}
    (h : isDChain s prv cur (x :: xs) = true) :
    cur = x ∧ x ≠ 0 ∧ (s.mem x).prev = prv ∧ isDChain s x (s.mem x).next xs = true := by
  simp only [isDChain, Bool.and_eq_true, beq_iff_eq, bne_iff_ne] at h
  exact ⟨h.1.1.1, h.1.1.2, h.1.2, h.2⟩

theorem isDChain_isChain {s : State} {prv cur : Nat} {l : List Nat}
    (h : isDChain s prv cur l = true) : isChain s cur l = true := by
  induction l generalizing prv cur with
  | nil => simpa [isDChain, isChain] using h
  | cons x xs ih =>
    obtain ⟨h1, h2, -, h4⟩ := isDChain_cons h
    simp [isChain, h1, h2, ih h4]

theorem isChain_ne_zero {s : State} {cur : Nat} {l : List Nat}
    (h : isChain s cur l = true) : ∀ x ∈ l, x ≠ 0 := by
  induction l generalizing cur with
  | nil => simp
  | cons y ys ih =>
    obtain ⟨-, h2, h3⟩ := isChain_cons h
    intro x hx
    rcases List.mem_cons.mp hx with rfl | hx
    · exact h2
    · exact ih h3 x hx

/-- A chain that continues after `pre` is a chain from the entry that follows `pre`. -/
theorem isChain_suffix {s : State} {cur x : Nat} {pre post : List Nat}
    (h : isChain s cur (pre ++ x :: post) = true) : isChain s x (x :: post) = true := by
  induction pre generalizing cur with
  | nil =>
    simp only [List.nil_append] at h
    obtain ⟨h1, -, -⟩ := isChain_cons h
    subst h1
    exact h
  | cons y ys ih =>
    obtain ⟨-, -, h3⟩ := isChain_cons h
    exact ih h3

/-- A chain that reaches `nullptr` visits no address twice. -/
theorem isChain_nodup {s : State} {cur : Nat} {l : List Nat}
    (h : isChain s cur l = true) : l.Nodup := by
  induction l generalizing cur with
  | nil => exact List.nodup_nil
  | cons x xs ih =>
    obtain ⟨h1, h2, h3⟩ := isChain_cons h
    refine List.nodup_cons.mpr ⟨fun hx => ?_, ih h3⟩
    obtain ⟨p, q, hpq⟩ := List.append_of_mem hx
    rw [hpq] at h3
    have h4 := isChain_suffix h3
    obtain ⟨-, -, h5⟩ := isChain_cons h4
    have h6 := isChain_unique h3 h5
    have h7 := congrArg List.length h6
    simp at h7
    omega

theorem isChain_mk {s : State} {x : Nat} {xs : List Nat} (h0 : x ≠ 0)
    (h : isChain s (s.mem x).next xs = true) : isChain s x (x :: xs) = true := by
  simp [isChain, h0, h]

/-- Links that agree on a chain give the same chain. -/
theorem isChain_frame {s s' : State} {cur : Nat} {l : List Nat}
    (h : isChain s cur l = true) (hn : ∀ x ∈ l, (s'.mem x).next = (s.mem x).next) :
    isChain s' cur l = true := by
  induction l generalizing cur with
  | nil => simpa [isChain] using h
  | cons x xs ih =>
    obtain ⟨h1, h2, h3⟩ := isChain_cons h
    subst h1
    refine isChain_mk h2 ?_
    rw [hn cur (by simp)]
    exact ih h3 (fun y hy => hn y (by simp [hy]))

theorem ite_setHead_mem (c : Prop) [Decidable c] (t : State) (a v : Nat) :
    (if c then setHead t a v else t).mem = t.mem := by
  split_ifs <;> rfl

theorem ite_setPrev_next (c : Prop) [Decidable c] (t : State) (a v x : Nat) :
    ((if c then setPrev t a v else t).mem x).next = (t.mem x).next := by
  split_ifs <;> simp

theorem ite_setPrev_freeLists (c : Prop) [Decidable c] (t : State) (a v : Nat) :
    (if c then setPrev t a v else t).freeLists = t.freeLists := by
  split_ifs <;> rfl

theorem ite_setNext_next (c : Prop) [Decidable c] (t : State) (a v x : Nat) :
    ((if c then setNext t a v else t).mem x).next =
      if c ∧ x = a then v else (t.mem x).next := by
  by_cases hc : c <;> by_cases hx : x = a <;> simp [hc, hx]

theorem ite_setNext_freeLists (c : Prop) [Decidable c] (t : State) (a v : Nat) :
    (if c then setNext t a v else t).freeLists = t.freeLists := by
  split_ifs <;> rfl

theorem unlink_next (s : State) (c b x : Nat) :
    ((unlink s c b).mem x).next =
      if (s.mem b).prev ≠ 0 ∧ x = (s.mem b).prev then (s.mem b).next else (s.mem x).next := by
  simp only [unlink, ite_setHead_mem, ite_setPrev_next, ite_setNext_next]

theorem unlink_head (s : State) (c b c' : Nat) :
    (unlink s c b).freeLists c' =
      if c' = c ∧ s.freeLists c = b then (s.mem b).next else s.freeLists c' := by
  simp only [unlink, ite_setPrev_freeLists, ite_setNext_freeLists, ite_setPrev_next,
    ite_setNext_next]
  by_cases h : s.freeLists c = b <;> by_cases hc : c' = c <;> simp [h, hc] <;>
    (split_ifs <;> simp)

/-- In a doubly linked chain the `prev` link of an entry that has predecessors points to one
of them. -/
theorem isDChain_prev_mem {s : State} {prv cur b : Nat} {pre post : List Nat}
    (h : isDChain s prv cur (pre ++ b :: post) = true) (hne : pre ≠ []) :
    (s.mem b).prev ∈ pre := by
  induction pre generalizing prv cur with
  | nil => exact absurd rfl hne
  | cons x xs ih =>
    obtain ⟨-, -, -, h4⟩ := isDChain_cons h
    cases xs with
    | nil =>
      have h4' : isDChain s x (s.mem x).next (b :: post) = true := h4
      obtain ⟨-, -, h3, -⟩ := isDChain_cons h4'
      simp [h3]
    | cons y ys =>
      exact List.mem_cons_of_mem _ (ih h4 (by simp))

/-- The chain that `unlink` leaves: the entries before and after the removed block, in their
old order. The state `s'` stands for the state after `unlink`. -/
theorem chain_without {s s' : State} {b : Nat} {pre post : List Nat} {prv cur : Nat}
    (hn : ∀ x, (s'.mem x).next =
      if (s.mem b).prev ≠ 0 ∧ x = (s.mem b).prev then (s.mem b).next else (s.mem x).next)
    (hd : isDChain s prv cur (pre ++ b :: post) = true)
    (hnd : (pre ++ b :: post).Nodup) (hprv : prv = 0 ∨ prv ∉ post) :
    isChain s' (if pre = [] then (s.mem b).next else cur) (pre ++ post) = true := by
  induction pre generalizing prv cur with
  | nil =>
    simp only [List.nil_append] at hd hnd ⊢
    obtain ⟨-, -, h3, h4⟩ := isDChain_cons hd
    simp only [if_true]
    refine isChain_frame (isDChain_isChain h4) (fun x hx => ?_)
    rw [hn x, h3, if_neg]
    rintro ⟨h0, rfl⟩
    rcases hprv with h | h
    · exact h0 h
    · exact h hx
  | cons x xs ih =>
    obtain ⟨h1, h2, -, h4⟩ := isDChain_cons hd
    subst h1
    have hnd' := List.nodup_cons.mp hnd
    have hxpost : cur ∉ post := fun hx => hnd'.1 (by simp [hx])
    have hih := ih h4 hnd'.2 (Or.inr hxpost)
    simp only [List.cons_append, if_false, reduceCtorEq]
    refine isChain_mk h2 ?_
    cases xs with
    | nil =>
      have h4' : isDChain s cur (s.mem cur).next (b :: post) = true := h4
      obtain ⟨-, -, h3, -⟩ := isDChain_cons h4'
      rw [hn cur, h3, if_pos ⟨h2, rfl⟩]
      simpa using hih
    | cons y ys =>
      have hmem := isDChain_prev_mem h4 (by simp)
      have hne : cur ≠ (s.mem b).prev := by
        rintro heq
        apply hnd'.1
        rw [heq]
        exact List.mem_append_left _ hmem
      rw [hn cur, if_neg (fun h => hne h.2)]
      simpa using hih

/-- After `unlink` of an entry of a well-formed list, the list holds the other entries in
their old order. -/
theorem unlink_erase {s : State} {c b : Nat} {l : List Nat}
    (hd : isDChain s 0 (s.freeLists c) l = true) (hb : b ∈ l) :
    isChain (unlink s c b) ((unlink s c b).freeLists c) (l.erase b) = true := by
  have hnd := isChain_nodup (isDChain_isChain hd)
  obtain ⟨pre, post, rfl⟩ := List.append_of_mem hb
  have hbpre : b ∉ pre := by
    intro hmem
    have := List.nodup_append.mp hnd
    exact this.2.2 hmem (by simp)
  rw [List.erase_append_right _ hbpre, List.erase_cons_head]
  have hchain := chain_without (unlink_next s c b) hd hnd (Or.inl rfl)
  rw [unlink_head]
  cases pre with
  | nil =>
    simp only [List.nil_append] at hd
    obtain ⟨h1, -, -, -⟩ := isDChain_cons hd
    simpa [h1] using hchain
  | cons x xs =>
    obtain ⟨h1, -, -, -⟩ := isDChain_cons hd
    have hxb : x ≠ b := fun h => hbpre (by simp [h])
    simpa [h1, hxb] using hchain

/-- On a chain the scan returns the first fitting entry, or `nullptr` when none fits. -/
theorem scanList_first {s : State} (a : Nat) {l : List Nat} {cur fuel : Nat}
    (hc : isChain s cur l = true) (hfuel : l.length < fuel) :
    scanList s a fuel cur = some ((l.find? (fits s a)).getD 0) := by
  induction l generalizing cur fuel with
  | nil => simpa using scanList_nofit hc (by simp) hfuel
  | cons x xs ih =>
    obtain ⟨h1, h2, h3⟩ := isChain_cons hc
    subst h1
    obtain ⟨n, rfl⟩ : ∃ n, fuel = n + 1 := ⟨fuel - 1, by simp at hfuel; omega⟩
    unfold scanList
    by_cases hx : fits s a cur = true
    · have hx' := hx
      unfold fits at hx'
      simp only [h2, if_false]
      rw [if_pos (by simpa using hx'), List.find?_cons_of_pos _ hx]
      rfl
    · have hx' := hx
      unfold fits at hx'
      simp only [h2, if_false]
      rw [if_neg (by simpa using hx'), List.find?_cons_of_neg _ hx]
      exact ih h3 (by simpa using hfuel)

/-- The class loop returns the first fitting entry of the lists it visits. -/
theorem findLoop_first {s : State} (a : Nat) {fuel : Nat} (ls : Nat → List Nat)
    (hscan : ∀ c, c < NUM_CLASSES →
      isDChain s 0 (s.freeLists c) (ls c) = true ∧ (ls c).length < fuel) :
    ∀ k c, c + k = NUM_CLASSES →
      ((classLists ls k c).find? (fits s a) = none → findLoop s a fuel k c = some (0, s)) ∧
      (∀ b, (classLists ls k c).find? (fits s a) = some b →
        b ≠ 0 ∧ ∃ c', c ≤ c' ∧ c' < NUM_CLASSES ∧ b ∈ ls c' ∧
          findLoop s a fuel k c = some (b, unlink s c' b)) := by
  intro k
  induction k with
  | zero =>
    intro c _
    exact ⟨fun _ => rfl, fun b hb => by simp [classLists] at hb⟩
  | succ k ih =>
    intro c hk
    obtain ⟨hd, hlen⟩ := hscan c (by omega)
    have hs := scanList_first a (isDChain_isChain hd) hlen
    obtain ⟨ih1, ih2⟩ := ih (c + 1) (by omega)
    simp only [classLists, List.find?_append]
    cases hf : (ls c).find? (fits s a) with
    | none =>
      rw [hf] at hs
      simp only [Option.getD_none] at hs
      rw [findLoop_continue hs]
      simp only [Option.none_or]
      refine ⟨ih1, fun b hb => ?_⟩
      obtain ⟨hb0, c', h1, h2, h3, h4⟩ := ih2 b hb
      exact ⟨hb0, c', by omega, h2, h3, h4⟩
    | some x =>
      rw [hf] at hs
      simp only [Option.getD_some] at hs
      have hx := List.mem_of_find?_eq_some hf
      have hx0 := isChain_ne_zero (isDChain_isChain hd) x hx
      simp only [Option.or_some]
      refine ⟨fun h => by simp at h, fun b hb => ?_⟩
      simp only [Option.some.injEq] at hb
      subst hb
      exact ⟨hx0, c, le_rfl, by omega, hx, findLoop_stop hx0 hs⟩

/-- C17: in a state whose four free lists are acyclic chains with consistent `prev` links,
`findBlockInPool(pool, a)` returns, for every pool, the first entry of the lists of the classes
`getClass a .. 3` that is free and of size at least `a`, and `nullptr` when there is none; the
state is untouched in that case, and otherwise the list that held the block holds the other
entries in their old order. -/
theorem first_fit (s : State) (a : Nat) (ls : Nat → List Nat)
    (hwf : ∀ c, c < NUM_CLASSES → isDChain s 0 (s.freeLists c) (ls c) = true) :
    ∃ N, ∀ fuel, N ≤ fuel → ∀ pool,
      ((classLists ls (NUM_CLASSES - getClass a) (getClass a)).find? (fits s a) = none →
        findBlockInPool fuel s pool a = some (0, s)) ∧
      (∀ b, (classLists ls (NUM_CLASSES - getClass a) (getClass a)).find? (fits s a) = some b →
        b ≠ 0 ∧ ∃ c, getClass a ≤ c ∧ c < NUM_CLASSES ∧ b ∈ ls c ∧
          findBlockInPool fuel s pool a = some (b, unlink s c b) ∧
          isChain (unlink s c b) ((unlink s c b).freeLists c) ((ls c).erase b) = true) := by
  refine ⟨(ls 0).length + (ls 1).length + (ls 2).length + (ls 3).length + 1,
    fun fuel hfuel pool => ?_⟩
  have hscan : ∀ c, c < NUM_CLASSES →
      isDChain s 0 (s.freeLists c) (ls c) = true ∧ (ls c).length < fuel := by
    intro c hc
    refine ⟨hwf c hc, ?_⟩
    unfold NUM_CLASSES at hc
    interval_cases c <;> omega
  have hk : getClass a + (NUM_CLASSES - getClass a) = NUM_CLASSES := by
    have := getClass_lt a
    omega
  obtain ⟨h1, h2⟩ := findLoop_first a ls hscan _ _ hk
  refine ⟨h1, fun b hb => ?_⟩
  obtain ⟨hb0, c, hc1, hc2, hmem, hfind⟩ := h2 b hb
  exact ⟨hb0, c, hc1, hc2, hmem, hfind, unlink_erase (hwf c hc2) hmem⟩

/-- C17 witness: with a free block of 64 bytes in list 0 and the rest of the pool in list 3, a
request of 16 bytes finds the 64-byte block and a request of 80 bytes the rest of the pool. -/
theorem first_fit_witness :
    (classLists thresholdLists (NUM_CLASSES - getClass 16) (getClass 16)).find?
        (fits afterThresholdFree 16) = some 268435456 ∧
    (classLists thresholdLists (NUM_CLASSES - getClass 80) (getClass 80)).find?
        (fits afterThresholdFree 80) = some 268435600 ∧
    (∃ N, ∀ fuel, N ≤ fuel → ∀ pool,
      ((classLists thresholdLists (NUM_CLASSES - getClass 16) (getClass 16)).find?
          (fits afterThresholdFree 16) = none →
        findBlockInPool fuel afterThresholdFree pool 16 = some (0, afterThresholdFree)) ∧
      (∀ b, (classLists thresholdLists (NUM_CLASSES - getClass 16) (getClass 16)).find?
          (fits afterThresholdFree 16) = some b →
        b ≠ 0 ∧ ∃ c, getClass 16 ≤ c ∧ c < NUM_CLASSES ∧ b ∈ thresholdLists c ∧
          findBlockInPool fuel afterThresholdFree pool 16 =
            some (b, unlink afterThresholdFree c b) ∧
          isChain (unlink afterThresholdFree c b) ((unlink afterThresholdFree c b).freeLists c)
            ((thresholdLists c).erase b) = true)) := by
  refine ⟨by decide, by decide, first_fit afterThresholdFree 16 thresholdLists ?_⟩
  intro c hc
  unfold NUM_CLASSES at hc
  interval_cases c <;> decide

/-! # Theorems of the byte view -/

namespace Bytes

/-! ## Raw storage: loads and stores -/

section storage
variable (s : State) (a b v c : Nat)

@[simp] theorem store8_poolList : (store8 s a v).poolList = s.poolList := rfl
@[simp] theorem store8_freeLists : (store8 s a v).freeLists = s.freeLists := rfl
@[simp] theorem store64_poolList : (store64 s a v).poolList = s.poolList := rfl
@[simp] theorem store64_freeLists : (store64 s a v).freeLists = s.freeLists := rfl
@[simp] theorem setHead_load8 : load8 (setHead s c v) a = load8 s a := rfl
@[simp] theorem setHead_load64 : load64 (setHead s c v) a = load64 s a := rfl
@[simp] theorem setHead_poolList_raw : (setHead s c v).poolList = s.poolList := rfl
@[simp] theorem setHead_freeLists_raw :
    (setHead s c v).freeLists a = if a = c then v else s.freeLists a := rfl

theorem load8_store8 :
    load8 (store8 s a v) b = if b % SIZE_MOD = a % SIZE_MOD then some (v % 256) else load8 s b := by
  unfold load8 store8
  by_cases h : b % SIZE_MOD = a % SIZE_MOD <;> simp [h]

theorem load8_lt {s : State} {a x : Nat} (h : load8 s a = some x) : x < 256 := by
  unfold load8 at h
  cases hm : s.mem (a % SIZE_MOD) with
  | none => simp [hm] at h
  | some y =>
    simp [hm] at h
    omega

end storage

theorem size_mod_eq : SIZE_MOD = 18446744073709551616 := by
  unfold SIZE_MOD; norm_num

theorem load64_congr {s t : State} {a : Nat}
    (h : ∀ i, i < 8 → load8 t (a + i) = load8 s (a + i)) : load64 t a = load64 s a := by
  unfold load64
  have h0 := h 0 (by omega)
  simp only [Nat.add_zero] at h0
  rw [h0, h 1 (by omega), h 2 (by omega), h 3 (by omega), h 4 (by omega), h 5 (by omega),
    h 6 (by omega), h 7 (by omega)]

theorem load8_store64_frame {s : State} {a v b : Nat}
    (h : ∀ j, j < 8 → b % SIZE_MOD ≠ (a + j) % SIZE_MOD) :
    load8 (store64 s a v) b = load8 s b := by
  have h0 := h 0 (by omega)
  simp only [Nat.add_zero] at h0
  unfold store64
  simp only [load8_store8, if_neg h0, if_neg (h 1 (by omega)), if_neg (h 2 (by omega)),
    if_neg (h 3 (by omega)), if_neg (h 4 (by omega)), if_neg (h 5 (by omega)),
    if_neg (h 6 (by omega)), if_neg (h 7 (by omega))]

theorem load64_store8_frame {s : State} {a v b : Nat}
    (h : ∀ i, i < 8 → (b + i) % SIZE_MOD ≠ a % SIZE_MOD) :
    load64 (store8 s a v) b = load64 s b := by
  apply load64_congr
  intro i hi
  rw [load8_store8, if_neg (h i hi)]

theorem load64_store64_frame {s : State} {a v b : Nat} (h : Apart b 8 a 8) :
    load64 (store64 s a v) b = load64 s b := by
  apply load64_congr
  intro i hi
  exact load8_store64_frame fun j hj => h i hi j hj

theorem load8_store8_frame {s : State} {a v b : Nat} (h : b % SIZE_MOD ≠ a % SIZE_MOD) :
    load8 (store8 s a v) b = load8 s b := by
  rw [load8_store8, if_neg h]

theorem load8_store8_same (s : State) (a v : Nat) :
    load8 (store8 s a v) a = some (v % 256) := by
  rw [load8_store8, if_pos rfl]

theorem offset_ne {a i j : Nat} (hi : i < 32) (hj : j < 32) (h : i ≠ j) :
    (a + i) % SIZE_MOD ≠ (a + j) % SIZE_MOD := by
  rw [size_mod_eq]; omega

theorem load64_store64_same (s : State) (a v : Nat) :
    load64 (store64 s a v) a = some (v % SIZE_MOD) := by
  have e : ∀ i j, i < 8 → j < 8 → i ≠ j → ¬ (a + i) % SIZE_MOD = (a + j) % SIZE_MOD :=
    fun i j hi hj h => offset_ne (by omega) (by omega) h
  have e0 : ∀ j, j < 8 → 0 ≠ j → ¬ a % SIZE_MOD = (a + j) % SIZE_MOD := by
    intro j hj h; simpa using e 0 j (by omega) hj h
  have e0' : ∀ j, j < 8 → j ≠ 0 → ¬ (a + j) % SIZE_MOD = a % SIZE_MOD := by
    intro j hj h; simpa using e j 0 hj (by omega) h
  unfold load64 store64
  simp only [load8_store8, if_true, if_pos, Option.bind_eq_bind, Option.some_bind,
    if_neg (e0 1 (by omega) (by omega)), if_neg (e0 2 (by omega) (by omega)),
    if_neg (e0 3 (by omega) (by omega)), if_neg (e0 4 (by omega) (by omega)),
    if_neg (e0 5 (by omega) (by omega)), if_neg (e0 6 (by omega) (by omega)),
    if_neg (e0 7 (by omega) (by omega)),
    if_neg (e 1 2 (by omega) (by omega) (by omega)), if_neg (e 1 3 (by omega) (by omega) (by omega)),
    if_neg (e 1 4 (by omega) (by omega) (by omega)), if_neg (e 1 5 (by omega) (by omega) (by omega)),
    if_neg (e 1 6 (by omega) (by omega) (by omega)), if_neg (e 1 7 (by omega) (by omega) (by omega)),
    if_neg (e 2 3 (by omega) (by omega) (by omega)), if_neg (e 2 4 (by omega) (by omega) (by omega)),
    if_neg (e 2 5 (by omega) (by omega) (by omega)), if_neg (e 2 6 (by omega) (by omega) (by omega)),
    if_neg (e 2 7 (by omega) (by omega) (by omega)),
    if_neg (e 3 4 (by omega) (by omega) (by omega)), if_neg (e 3 5 (by omega) (by omega) (by omega)),
    if_neg (e 3 6 (by omega) (by omega) (by omega)), if_neg (e 3 7 (by omega) (by omega) (by omega)),
    if_neg (e 4 5 (by omega) (by omega) (by omega)), if_neg (e 4 6 (by omega) (by omega) (by omega)),
    if_neg (e 4 7 (by omega) (by omega) (by omega)),
    if_neg (e 5 6 (by omega) (by omega) (by omega)), if_neg (e 5 7 (by omega) (by omega) (by omega)),
    if_neg (e 6 7 (by omega) (by omega) (by omega))]
  rw [size_mod_eq]
  norm_num
  omega

/-! ## Byte ranges that lie apart -/

theorem apart_symm {a m b n : Nat} (h : Apart a m b n) : Apart b n a m :=
  fun i hi j hj e => h j hj i hi e.symm

theorem apart_sub {a m b n : Nat} (h : Apart a m b n) (o m1 p n1 : Nat)
    (hm : o + m1 ≤ m) (hn : p + n1 ≤ n) : Apart (a + o) m1 (b + p) n1 := by
  intro i hi j hj
  rw [Nat.add_assoc, Nat.add_assoc]
  exact h (o + i) (by omega) (p + j) (by omega)

theorem apart_left {a m b n : Nat} (h : Apart a m b n) (o m1 n1 : Nat)
    (hm : o + m1 ≤ m) (hn : n1 ≤ n) : Apart (a + o) m1 b n1 := by
  have := apart_sub h o m1 0 n1 hm (show 0 + n1 ≤ n by omega)
  simpa using this

theorem apart_shrink {a m b n : Nat} (h : Apart a m b n) (m1 n1 : Nat)
    (hm : m1 ≤ m) (hn : n1 ≤ n) : Apart a m1 b n1 :=
  fun i hi j hj => h i (by omega) j (by omega)

/-- Two fields of one header at different offsets share no byte. -/
theorem apart_fields (a o m p n : Nat) (h : o + m ≤ p ∨ p + n ≤ o) (hm : o + m ≤ 32)
    (hn : p + n ≤ 32) : Apart (a + o) m (a + p) n := by
  intro i hi j hj
  rw [Nat.add_assoc, Nat.add_assoc]
  exact offset_ne (by omega) (by omega) (by omega)

/-- A header lies apart from the header `d` bytes further on when `32 ≤ d ≤ 2 ^ 64 - 32`. -/
theorem apart_shift (a : Nat) {d : Nat} (h1 : 32 ≤ d) (h2 : d + 32 ≤ SIZE_MOD) :
    Apart a 32 ((a + d) % SIZE_MOD) 32 := by
  intro i hi j hj
  rw [size_mod_eq] at *
  omega

/-! ## Header fields -/

theorem load64_lt {s : State} {a x : Nat} (h : load64 s a = some x) : x < SIZE_MOD := by
  unfold load64 at h
  simp only [Option.bind_eq_some] at h
  obtain ⟨b0, h0, b1, h1, b2, h2, b3, h3, b4, h4, b5, h5, b6, h6, b7, h7, hx⟩ := h
  have := load8_lt h0; have := load8_lt h1; have := load8_lt h2; have := load8_lt h3
  have := load8_lt h4; have := load8_lt h5; have := load8_lt h6; have := load8_lt h7
  simp only [Option.some.injEq] at hx
  rw [size_mod_eq]
  omega

theorem size_lt {s : State} {b x : Nat} (h : s.size b = some x) : x < SIZE_MOD := load64_lt h

theorem size_setSize (s : State) (b v : Nat) : (setSize s b v).size b = some (v % SIZE_MOD) :=
  load64_store64_same s b v

theorem size_setFree (s : State) (b : Nat) (f : Bool) : (setFree s b f).size b = s.size b :=
  load64_store8_frame fun _ hi => offset_ne (by omega) (by omega) (by omega)

theorem size_setNext (s : State) (b v : Nat) : (setNext s b v).size b = s.size b :=
  load64_store64_frame (by
    simpa using apart_fields b 0 8 16 8 (by omega) (by omega) (by omega))

theorem size_setPrev (s : State) (b v : Nat) : (setPrev s b v).size b = s.size b :=
  load64_store64_frame (by
    simpa using apart_fields b 0 8 24 8 (by omega) (by omega) (by omega))

theorem free_setFree (s : State) (b : Nat) (f : Bool) : (setFree s b f).free b = some f := by
  unfold State.free setFree
  rw [load8_store8_same]
  cases f <;> simp

theorem free_setSize (s : State) (b v : Nat) : (setSize s b v).free b = s.free b := by
  unfold State.free setSize
  rw [load8_store64_frame fun j hj => offset_ne (by omega) (by omega) (by omega)]

theorem free_setNext (s : State) (b v : Nat) : (setNext s b v).free b = s.free b := by
  unfold State.free setNext
  rw [load8_store64_frame fun j hj => by
    rw [Nat.add_assoc]; exact offset_ne (by omega) (by omega) (by omega)]

theorem free_setPrev (s : State) (b v : Nat) : (setPrev s b v).free b = s.free b := by
  unfold State.free setPrev
  rw [load8_store64_frame fun j hj => by
    rw [Nat.add_assoc]; exact offset_ne (by omega) (by omega) (by omega)]

/-- A store to the size field of `x` leaves the first nine bytes of `b` alone when the two
ranges are apart. -/
theorem size_setSize_frame {s : State} {x v b : Nat} (h : Apart x 8 b 9) :
    (setSize s x v).size b = s.size b :=
  load64_store64_frame fun i hi j hj => (h j hj i (by omega)).symm

theorem free_setSize_frame {s : State} {x v b : Nat} (h : Apart x 8 b 9) :
    (setSize s x v).free b = s.free b := by
  unfold State.free setSize
  exact congrArg _ (load8_store64_frame fun j hj => (h j hj 8 (by omega)).symm)

theorem size_setFree_frame {s : State} {x b : Nat} {f : Bool} (h : Apart (x + 8) 1 b 9) :
    (setFree s x f).size b = s.size b :=
  load64_store8_frame fun i hi => by simpa using (h 0 (by omega) i (by omega)).symm

theorem free_setFree_frame {s : State} {x b : Nat} {f : Bool} (h : Apart (x + 8) 1 b 9) :
    (setFree s x f).free b = s.free b := by
  unfold State.free setFree
  exact congrArg _ (load8_store8_frame (by simpa using (h 0 (by omega) 8 (by omega)).symm))

theorem size_setPrev_frame {s : State} {x v b : Nat} (h : Apart (x + 24) 8 b 9) :
    (setPrev s x v).size b = s.size b :=
  load64_store64_frame fun i hi j hj => (h j hj i (by omega)).symm

theorem free_setPrev_frame {s : State} {x v b : Nat} (h : Apart (x + 24) 8 b 9) :
    (setPrev s x v).free b = s.free b := by
  unfold State.free setPrev
  exact congrArg _ (load8_store64_frame fun j hj => (h j hj 8 (by omega)).symm)

section globals
variable (s : State) (b v : Nat) (f : Bool)

@[simp] theorem freeLists_setSize : (setSize s b v).freeLists = s.freeLists := rfl
@[simp] theorem freeLists_setFree : (setFree s b f).freeLists = s.freeLists := rfl
@[simp] theorem freeLists_setNext : (setNext s b v).freeLists = s.freeLists := rfl
@[simp] theorem freeLists_setPrev : (setPrev s b v).freeLists = s.freeLists := rfl
@[simp] theorem poolList_setSize : (setSize s b v).poolList = s.poolList := rfl
@[simp] theorem poolList_setFree : (setFree s b f).poolList = s.poolList := rfl
@[simp] theorem poolList_setNext : (setNext s b v).poolList = s.poolList := rfl
@[simp] theorem poolList_setPrev : (setPrev s b v).poolList = s.poolList := rfl
@[simp] theorem size_setHead (c : Nat) : (setHead s c v).size b = s.size b := rfl
@[simp] theorem free_setHead (c : Nat) : (setHead s c v).free b = s.free b := rfl
@[simp] theorem next_setHead (c : Nat) : (setHead s c v).next b = s.next b := rfl
@[simp] theorem prev_setHead (c : Nat) : (setHead s c v).prev b = s.prev b := rfl

end globals

theorem insertBlock_eq {s : State} {block sz : Nat} (h : s.size block = some sz) :
    insertBlock s block = some (setHead (setPrev
      (if s.freeLists (getClass sz) ≠ 0
        then setPrev (setNext s block (s.freeLists (getClass sz))) (s.freeLists (getClass sz)) block
        else setNext s block (s.freeLists (getClass sz))) block 0) (getClass sz) block) := by
  unfold insertBlock
  rw [h]
  rfl

theorem split_sums {size : Nat}
    (hnw : alignSize size + 2 * HEADER_SIZE + ALIGNMENT < SIZE_MOD) :
    (alignSize size + HEADER_SIZE) % SIZE_MOD = alignSize size + HEADER_SIZE ∧
    ((alignSize size + HEADER_SIZE) % SIZE_MOD + HEADER_SIZE + ALIGNMENT) % SIZE_MOD =
      alignSize size + 2 * HEADER_SIZE + ALIGNMENT ∧
    (alignSize size + HEADER_SIZE + HEADER_SIZE + ALIGNMENT) % SIZE_MOD =
      alignSize size + 2 * HEADER_SIZE + ALIGNMENT := by
  unfold HEADER_SIZE ALIGNMENT at *
  rw [size_mod_eq] at *
  omega

theorem splitAndAllocate_whole_eq {s : State} {block size S : Nat}
    (hnw : alignSize size + 2 * HEADER_SIZE + ALIGNMENT < SIZE_MOD)
    (hS : s.size block = some S) (hlt : S < alignSize size + 2 * HEADER_SIZE + ALIGNMENT) :
    splitAndAllocate s block size =
      some ((block + HEADER_SIZE) % SIZE_MOD, setFree s block false) := by
  unfold splitAndAllocate
  rw [hS]
  simp only [Option.some_bind, (split_sums hnw).1, (split_sums hnw).2.2, ge_iff_le,
    if_neg (Nat.not_le.mpr hlt),
    Option.map_some']

theorem splitAndAllocate_split_eq {s : State} {block size S : Nat}
    (hnw : alignSize size + 2 * HEADER_SIZE + ALIGNMENT < SIZE_MOD)
    (hS : s.size block = some S) (hge : alignSize size + 2 * HEADER_SIZE + ALIGNMENT ≤ S) :
    splitAndAllocate s block size =
      (insertBlock
        (setPrev (setNext (setFree (setSize s ((block + (alignSize size + HEADER_SIZE)) % SIZE_MOD)
          (S - alignSize size - HEADER_SIZE)) ((block + (alignSize size + HEADER_SIZE)) % SIZE_MOD)
          true) ((block + (alignSize size + HEADER_SIZE)) % SIZE_MOD) 0)
          ((block + (alignSize size + HEADER_SIZE)) % SIZE_MOD) 0)
        ((block + (alignSize size + HEADER_SIZE)) % SIZE_MOD)).map fun t5 =>
        ((block + HEADER_SIZE) % SIZE_MOD, setFree (setSize t5 block (alignSize size)) block false) := by
  have hlt := size_lt hS
  have e : (S + SIZE_MOD - (alignSize size + HEADER_SIZE)) % SIZE_MOD
      = S - alignSize size - HEADER_SIZE := by
    unfold HEADER_SIZE ALIGNMENT at *
    rw [size_mod_eq] at *
    omega
  unfold splitAndAllocate
  rw [hS]
  simp only [Option.some_bind, (split_sums hnw).1, (split_sums hnw).2.2, ge_iff_le, if_pos hge, e,
    Option.map_map]
  rfl

theorem carve_fields {s : State} {block size S : Nat}
    (hnw : alignSize size + 2 * HEADER_SIZE + ALIGNMENT < SIZE_MOD)
    (hS : s.size block = some S) (hge : alignSize size + 2 * HEADER_SIZE + ALIGNMENT ≤ S) :
    ∃ s', splitAndAllocate s block size = some ((block + HEADER_SIZE) % SIZE_MOD, s') ∧
      s'.size block = some (alignSize size) ∧ s'.free block = some false ∧
      s'.freeLists (getClass (S - alignSize size - HEADER_SIZE)) =
        (block + (alignSize size + HEADER_SIZE)) % SIZE_MOD ∧
      s'.poolList = s.poolList ∧
      (s.freeLists (getClass (S - alignSize size - HEADER_SIZE)) = 0 ∨
        Apart (s.freeLists (getClass (S - alignSize size - HEADER_SIZE)) + 24) 8
          ((block + (alignSize size + HEADER_SIZE)) % SIZE_MOD) 9 →
        s'.size ((block + (alignSize size + HEADER_SIZE)) % SIZE_MOD) =
            some (S - alignSize size - HEADER_SIZE) ∧
          s'.free ((block + (alignSize size + HEADER_SIZE)) % SIZE_MOD) = some true) := by
  have hlt := size_lt hS
  have hrem : (S - alignSize size - HEADER_SIZE) % SIZE_MOD = S - alignSize size - HEADER_SIZE :=
    Nat.mod_eq_of_lt (by omega)
  have ha : alignSize size % SIZE_MOD = alignSize size := Nat.mod_eq_of_lt (by omega)
  have hap : Apart block 32 ((block + (alignSize size + HEADER_SIZE)) % SIZE_MOD) 32 :=
    apart_shift block (by unfold HEADER_SIZE; omega) (by unfold HEADER_SIZE ALIGNMENT at *; omega)
  generalize hR : (block + (alignSize size + HEADER_SIZE)) % SIZE_MOD = R at *
  generalize hrm : S - alignSize size - HEADER_SIZE = rem at *
  have h4 : (setPrev (setNext (setFree (setSize s R rem) R true) R 0) R 0).size R = some rem := by
    rw [size_setPrev, size_setNext, size_setFree, size_setSize, hrem]
  rw [splitAndAllocate_split_eq hnw hS hge, hR, hrm, insertBlock_eq h4]
  refine ⟨_, rfl, ?_, ?_, ?_, ?_, ?_⟩
  · rw [size_setFree, size_setSize, ha]
  · exact free_setFree _ _ _
  · simp
  · simp only [poolList_setFree, poolList_setSize, setHead_poolList_raw, poolList_setPrev]
    split_ifs <;> rfl
  · intro hhead
    have hb8 : Apart (block + 8) 1 R 9 := apart_left hap 8 1 9 (by omega) (by omega)
    have hb0 : Apart block 8 R 9 := apart_shrink hap 8 9 (by omega) (by omega)
    constructor
    · rw [size_setFree_frame hb8, size_setSize_frame hb0, size_setHead, size_setPrev]
      by_cases h0 : s.freeLists (getClass rem) = 0
      · simp only [freeLists_setPrev, freeLists_setNext, freeLists_setFree, freeLists_setSize, h0,
          ne_eq, not_true_eq_false, if_false]
        rw [size_setNext, h4]
      · simp only [freeLists_setPrev, freeLists_setNext, freeLists_setFree, freeLists_setSize,
          ne_eq, h0, not_false_eq_true, if_true]
        rw [size_setPrev_frame (hhead.resolve_left h0), size_setNext, h4]
    · have f4 : (setPrev (setNext (setFree (setSize s R rem) R true) R 0) R 0).free R
          = some true := by
        rw [free_setPrev, free_setNext, free_setFree]
      rw [free_setFree_frame hb8, free_setSize_frame hb0, free_setHead, free_setPrev]
      by_cases h0 : s.freeLists (getClass rem) = 0
      · simp only [freeLists_setPrev, freeLists_setNext, freeLists_setFree, freeLists_setSize, h0,
          ne_eq, not_true_eq_false, if_false]
        rw [free_setNext, f4]
      · simp only [freeLists_setPrev, freeLists_setNext, freeLists_setFree, freeLists_setSize,
          ne_eq, h0, not_false_eq_true, if_true]
        rw [free_setPrev_frame (hhead.resolve_left h0), free_setNext, f4]

/-! ## Stores to a header that lies apart -/

theorem load64_store64_apart {s : State} {x b : Nat} (h : Apart x 32 b 32) (o p v : Nat)
    (ho : o + 8 ≤ 32) (hp : p + 8 ≤ 32) :
    load64 (store64 s (x + o) v) (b + p) = load64 s (b + p) :=
  load64_store64_frame (apart_symm (apart_sub h o 8 p 8 ho hp))

section apart
variable {s : State} {x b : Nat} (h : Apart x 32 b 32) (v : Nat) (f : Bool)
include h

theorem size_setNext_apart : (setNext s x v).size b = s.size b := by
  simpa [State.size, setNext] using
    (load64_store64_apart h 16 0 v (by omega) (by omega) :
      load64 (store64 s (x + 16) v) (b + 0) = load64 s (b + 0))

theorem size_setPrev_apart : (setPrev s x v).size b = s.size b := by
  simpa [State.size, setPrev] using
    (load64_store64_apart h 24 0 v (by omega) (by omega) :
      load64 (store64 s (x + 24) v) (b + 0) = load64 s (b + 0))

theorem next_setNext_apart : (setNext s x v).next b = s.next b :=
  load64_store64_apart h 16 16 v (by omega) (by omega)

theorem next_setPrev_apart : (setPrev s x v).next b = s.next b :=
  load64_store64_apart h 24 16 v (by omega) (by omega)

theorem prev_setNext_apart : (setNext s x v).prev b = s.prev b :=
  load64_store64_apart h 16 24 v (by omega) (by omega)

theorem prev_setPrev_apart : (setPrev s x v).prev b = s.prev b :=
  load64_store64_apart h 24 24 v (by omega) (by omega)

end apart

/-! ## The search -/

theorem scanList_found {s : State} {size fuel cur b : Nat}
    (h : scanList s size fuel cur = some (b + 1)) : fits s size (b + 1) = some true := by
  induction fuel generalizing cur with
  | zero => simp [scanList] at h
  | succ n ih =>
    unfold scanList at h
    split_ifs at h with h0
    · simp at h
    · cases hf : fits s size cur with
      | none => simp [hf] at h
      | some f =>
        cases f with
        | true =>
          simp [hf] at h
          subst h
          exact hf
        | false =>
          simp only [hf, Option.some_bind, Bool.false_eq_true, if_false] at h
          cases hn : s.next cur with
          | none => simp [hn] at h
          | some n =>
            simp only [hn, Option.some_bind] at h
            exact ih h

theorem findLoop_hit {s s' : State} {size fuel k c b : Nat}
    (h : findLoop s size fuel k c = some (b + 1, s')) :
    (∃ c', unlink s c' (b + 1) = some s') ∧ fits s size (b + 1) = some true := by
  induction k generalizing c with
  | zero => simp [findLoop] at h
  | succ k ih =>
    unfold findLoop at h
    split at h
    · simp at h
    · exact ih h
    · rename_i b' hb
      cases hu : unlink s c (b' + 1) with
      | none => simp [hu] at h
      | some u =>
        simp only [hu, Option.map_some', Option.some.injEq, Prod.mk.injEq] at h
        obtain ⟨h1, h2⟩ := h
        have h1' : b' = b := by omega
        subst h1'
        subst h2
        exact ⟨⟨c, hu⟩, scanList_found hb⟩

theorem findLoop_miss {s s' : State} {size fuel k c : Nat}
    (h : findLoop s size fuel k c = some (0, s')) : s' = s := by
  induction k generalizing c with
  | zero => simp [findLoop] at h; exact h.symm
  | succ k ih =>
    unfold findLoop at h
    split at h
    · simp at h
    · exact ih h
    · rename_i b' hb
      cases hu : unlink s c (b' + 1) with
      | none => simp [hu] at h
      | some u => simp [hu] at h

theorem searchPools_miss {fuel a : Nat} {s s1 : State} {pools : List PoolHeader}
    (h : searchPools fuel a s pools = some (none, s1)) : s1 = s := by
  induction pools generalizing s with
  | nil => simp [searchPools] at h; exact h.symm
  | cons p rest ih =>
    unfold searchPools at h
    split at h
    · simp at h
    · rename_i s2 hf
      have := findLoop_miss hf
      subst this
      exact ih h
    · rename_i b s2 hf
      cases hsp : splitAndAllocate s2 (b + 1) a with
      | none => simp [hsp] at h
      | some r => simp [hsp] at h

theorem searchPools_hit {fuel a : Nat} {s s1 : State} {pools : List PoolHeader}
    {r : Nat × State} (h : searchPools fuel a s pools = some (some r, s1)) :
    ∃ b c u, fits s a (b + 1) = some true ∧ unlink s c (b + 1) = some u ∧
      splitAndAllocate u (b + 1) a = some r := by
  induction pools generalizing s with
  | nil => simp [searchPools] at h
  | cons p rest ih =>
    unfold searchPools at h
    split at h
    · simp at h
    · rename_i s2 hf
      have := findLoop_miss hf
      subst this
      exact ih h
    · rename_i b s2 hf
      obtain ⟨⟨c, hu⟩, hfit⟩ := findLoop_hit hf
      cases hsp : splitAndAllocate s2 (b + 1) a with
      | none => simp [hsp] at h
      | some r' =>
        simp only [hsp, Option.map_some', Option.some.injEq, Prod.mk.injEq] at h
        obtain ⟨h1, _⟩ := h
        subst h1
        exact ⟨b, c, s2, hfit, hu, hsp⟩

theorem grow_succ {alloc : Nat → Nat} {k : Nat} {s s2 t : State}
    (h1 : initPool s (alloc s.poolList.length) POOL_SIZE = some s2)
    (h2 : grow alloc k s2 = some t) : grow alloc (k + 1) s = some t := by
  unfold grow
  rw [h1]
  exact h2

theorem myMalloc_hit {alloc : Nat → Nat} {fuel : Nat} {s s' : State} {size p : Nat}
    (h : myMalloc alloc fuel s size = some (p, s')) :
    ∃ k t b c u, grow alloc k s = some t ∧ fits t (alignSize size) (b + 1) = some true ∧
      unlink t c (b + 1) = some u ∧ splitAndAllocate u (b + 1) (alignSize size) = some (p, s') := by
  induction fuel generalizing s with
  | zero => simp [myMalloc] at h
  | succ n ih =>
    unfold myMalloc at h
    split at h
    · simp at h
    · rename_i r s1 hs
      simp only [Option.some.injEq] at h
      subst h
      obtain ⟨b, c, u, h1, h2, h3⟩ := searchPools_hit hs
      exact ⟨0, s, b, c, u, rfl, h1, h2, h3⟩
    · rename_i s1 hs
      have := searchPools_miss hs
      subst this
      cases hi : initPool s1 (alloc s1.poolList.length) POOL_SIZE with
      | none => simp [hi] at h
      | some s2 =>
        simp only [hi, Option.some_bind] at h
        obtain ⟨k, t, b, c, u, h0, h1, h2, h3⟩ := ih h
        exact ⟨k + 1, t, b, c, u, grow_succ hi h0, h1, h2, h3⟩

theorem fits_true {s : State} {a b : Nat} (h : fits s a b = some true) :
    s.free b = some true ∧ ∃ S, s.size b = some S ∧ a ≤ S := by
  unfold fits at h
  cases hf : s.free b with
  | none => simp [hf] at h
  | some f =>
    cases f with
    | false => simp [hf] at h
    | true =>
      simp only [hf, Option.some_bind, if_true] at h
      cases hs : s.size b with
      | none => simp [hs] at h
      | some S =>
        simp only [hs, Option.map_some', Option.some.injEq, decide_eq_true_eq] at h
        exact ⟨rfl, S, rfl, h⟩

/-- Function `unlink` loads both links of the block. -/
theorem unlink_loads {s u : State} {c b : Nat} (h : unlink s c b = some u) :
    ∃ pv nx, s.prev b = some pv ∧ s.next b = some nx := by
  unfold unlink at h
  cases hp : s.prev b with
  | none => simp [hp] at h
  | some pv =>
    simp only [hp, Option.some_bind] at h
    by_cases h0 : pv = 0
    · simp only [h0, ne_eq, not_true_eq_false, if_false, Option.some_bind] at h
      cases hn : s.next b with
      | none => simp [hn] at h
      | some nx => exact ⟨pv, nx, rfl, rfl⟩
    · cases hn : s.next b with
      | none => simp [hn, h0] at h
      | some nx => exact ⟨pv, nx, rfl, rfl⟩

/-- The stores of `unlink` leave the size field of the block alone when the headers that its
two links point to lie apart from its own header. -/
theorem unlink_size_apart {s u : State} {c b pv nx : Nat} (h : unlink s c b = some u)
    (hp : s.prev b = some pv) (hn : s.next b = some nx)
    (h1 : pv = 0 ∨ Apart pv 32 b 32) (h2 : nx = 0 ∨ Apart nx 32 b 32) :
    u.size b = s.size b := by
  unfold unlink at h
  simp only [hp, Option.some_bind, hn, Option.map_some'] at h
  have key : ∀ s1 : State, s1.size b = s.size b → s1.next b = some nx → s1.prev b = some pv →
      ((s1.next b).bind fun n1 =>
        (if n1 ≠ 0 then (s1.prev b).map fun p1 => setPrev s1 n1 p1 else some s1).bind fun s2 =>
          if s2.freeLists c = b then (s2.next b).map fun n2 => setHead s2 c n2 else some s2)
        = some u → u.size b = s.size b := by
    intro s1 e1 e2 e3 hu
    simp only [e2, Option.some_bind, e3, Option.map_some'] at hu
    by_cases hnx : nx = 0
    · simp only [hnx, ne_eq, not_true_eq_false, if_false, Option.some_bind] at hu
      split_ifs at hu with hh
      · rw [hnx] at e2
        simp only [e2, Option.map_some', Option.some.injEq] at hu
        rw [← hu, size_setHead, e1]
      · simp only [Option.some.injEq] at hu
        rw [← hu, e1]
    · have ha := h2.resolve_left hnx
      simp only [ne_eq, hnx, not_false_eq_true, if_true, Option.some_bind] at hu
      have e2' : (setPrev s1 nx pv).next b = some nx := by rw [next_setPrev_apart ha, e2]
      split_ifs at hu with hh
      · simp only [e2', Option.map_some', Option.some.injEq] at hu
        rw [← hu, size_setHead, size_setPrev_apart ha, e1]
      · simp only [Option.some.injEq] at hu
        rw [← hu, size_setPrev_apart ha, e1]
  by_cases hpv : pv = 0
  · simp only [hpv, ne_eq, not_true_eq_false, if_false, Option.some_bind] at h
    exact key s rfl hn (by rw [hp, hpv]) (by simpa [hpv] using h)
  · have ha := h1.resolve_left hpv
    simp only [ne_eq, hpv, not_false_eq_true, if_true, Option.some_bind] at h
    exact key (setNext s pv nx) (size_setNext_apart ha nx)
      (by rw [next_setNext_apart ha, hn]) (by rw [prev_setNext_apart ha, hp]) h

theorem splitAndAllocate_post {u s' : State} {b size p : Nat}
    (hnw : alignSize size + 2 * HEADER_SIZE + ALIGNMENT < SIZE_MOD)
    (h : splitAndAllocate u b size = some (p, s')) :
    p = (b + HEADER_SIZE) % SIZE_MOD ∧ s'.free b = some false ∧
      ∃ S0, u.size b = some S0 ∧ (s'.size b = some (alignSize size) ∨ s'.size b = some S0) := by
  cases hS : u.size b with
  | none =>
    unfold splitAndAllocate at h
    simp [hS] at h
  | some S0 =>
    by_cases hge : alignSize size + 2 * HEADER_SIZE + ALIGNMENT ≤ S0
    · obtain ⟨s2, e, h1, h2, _⟩ := carve_fields hnw hS hge
      rw [e] at h
      simp only [Option.some.injEq, Prod.mk.injEq] at h
      obtain ⟨hp, hs⟩ := h
      subst hs
      exact ⟨hp.symm, h2, S0, rfl, Or.inl h1⟩
    · rw [splitAndAllocate_whole_eq hnw hS (by omega)] at h
      simp only [Option.some.injEq, Prod.mk.injEq] at h
      obtain ⟨hp, hs⟩ := h
      subst hs
      exact ⟨hp.symm, free_setFree _ _ _, S0, rfl, Or.inr (by rw [size_setFree, hS])⟩

section traces
set_option maxRecDepth 100000

/-! ## The block that `myMalloc` returns -/

/-- C1 (amended): let the request size not wrap in `alignSize` and its aligned size fit a pool.
When `myMalloc(size)` returns `p`, the search succeeded in the state `t` reached after some
number `k` of pool creations, on a block `b` that is not null; `p` is the 64-bit address
`b + sizeof(BlockHeader)`, which is not null when `b + 32 < 2^64`; the free flag of `b` is
cleared; and the recorded size of `b` is at least `size` provided the headers that the `prev`
and `next` links of `b` pointed to in `t` share no byte with the header of `b`. -/
theorem returned_block (alloc : Nat → Nat) (fuel : Nat) (s s' : State) (size p : Nat)
    (hsize : size ≤ alignSize size) (hfit : alignSize size ≤ POOL_SIZE - HEADER_SIZE)
    (h : myMalloc alloc fuel s size = some (p, s')) :
    ∃ k t b pv nx, grow alloc k s = some t ∧ b ≠ 0 ∧
      fits t (alignSize size) b = some true ∧
      p = (b + HEADER_SIZE) % SIZE_MOD ∧ (b + HEADER_SIZE < SIZE_MOD → p ≠ 0) ∧
      s'.free b = some false ∧
      t.prev b = some pv ∧ t.next b = some nx ∧
      ((pv = 0 ∨ Apart pv 32 b 32) → (nx = 0 ∨ Apart nx 32 b 32) →
        ∃ S, s'.size b = some S ∧ size ≤ S) := by
  obtain ⟨k, t, b, c, u, hg, hf, hu, hsp⟩ := myMalloc_hit h
  have hnw : alignSize (alignSize size) + 2 * HEADER_SIZE + ALIGNMENT < SIZE_MOD := by
    rw [alignSize_idem]
    unfold POOL_SIZE HEADER_SIZE ALIGNMENT at *
    rw [size_mod_eq]
    omega
  obtain ⟨hp, hfree, S0, hS0, hsz⟩ := splitAndAllocate_post hnw hsp
  obtain ⟨pv, nx, hpv, hnx⟩ := unlink_loads hu
  obtain ⟨_, S, hS, haS⟩ := fits_true hf
  refine ⟨k, t, b + 1, pv, nx, hg, by omega, hf, hp, ?_, hfree, hpv, hnx, ?_⟩
  · intro hlt
    rw [hp, Nat.mod_eq_of_lt hlt]
    omega
  · intro h1 h2
    have e := unlink_size_apart hu hpv hnx h1 h2
    rw [hS0, hS] at e
    simp only [Option.some.injEq] at e
    subst e
    rcases hsz with hsz | hsz
    · rw [alignSize_idem] at hsz
      exact ⟨_, hsz, hsize⟩
    · exact ⟨_, hsz, by omega⟩

/-- C1 witness: `myMalloc(40)` right after `initPool()` returns; in that state both links of
the block at the pool base are null, so the clause on the recorded size applies. -/
theorem returned_block_witness :
    (∃ p s', myMalloc risingAlloc 2 (stateAfter risingAlloc []) 40 = some (p, s') ∧
      ∃ k t b pv nx, grow risingAlloc k (stateAfter risingAlloc []) = some t ∧ b ≠ 0 ∧
        fits t (alignSize 40) b = some true ∧
        p = (b + HEADER_SIZE) % SIZE_MOD ∧ (b + HEADER_SIZE < SIZE_MOD → p ≠ 0) ∧
        s'.free b = some false ∧
        t.prev b = some pv ∧ t.next b = some nx ∧
        ((pv = 0 ∨ Apart pv 32 b 32) → (nx = 0 ∨ Apart nx 32 b 32) →
          ∃ S, s'.size b = some S ∧ 40 ≤ S)) ∧
    header (stateAfter risingAlloc []) (risingAlloc 0) =
      some { size := 1048544, free := true, next := 0, prev := 0 } ∧
    (myMalloc risingAlloc 2 (stateAfter risingAlloc []) 40).bind
        (fun r => (header r.2 (risingAlloc 0)).map fun h => (r.1, h.size, h.free)) =
      some (risingAlloc 0 + 32, 48, false) := by
  have h : (myMalloc risingAlloc 2 (stateAfter risingAlloc []) 40).isSome = true := by decide
  obtain ⟨⟨p, s'⟩, hr⟩ := Option.isSome_iff_exists.mp h
  exact ⟨⟨p, s', hr, returned_block _ _ _ _ _ _ (by decide) (by decide) hr⟩, by decide,
    by decide⟩

/-- C1 counterexample: for `size = 2^64 - 1` the sum in `alignSize` wraps to `0`, which passes
the bound on the aligned size; right after `initPool()` the call `myMalloc(2^64 - 1)` returns
`base + 32`, and the block at `base` has recorded size `0`, less than the request. -/
theorem wrapped_request :
    alignSize (2 ^ 64 - 1) = 0 ∧ alignSize (2 ^ 64 - 1) ≤ POOL_SIZE - HEADER_SIZE ∧
    (myMalloc risingAlloc 2 (stateAfter risingAlloc []) (2 ^ 64 - 1)).bind
        (fun r => (header r.2 (risingAlloc 0)).map fun h => (r.1, h.size, h.free)) =
      some (risingAlloc 0 + 32, 0, false) ∧
    ¬ (2 ^ 64 - 1 ≤ 0) := by
  decide

/-- After `reuseOps` the request `myMalloc(1048512)`, which fits a pool and does not wrap, is
served from the stale header at `base + 1072`: its list predecessor lies 16 bytes below it, the
store `current->prev->next = current->next` of the unlink lands on its size field, and the
block is returned with recorded size `0`. The pool list still holds one pool. -/
theorem unlink_overwrites_size :
    (exec risingAlloc 8 reuseOps).map (fun r => (r.hist, r.live)) =
      some ([268435488, 268435488, 268436544, 268435488], [268435488]) ∧
    ((stateAfter risingAlloc reuseOps).prev 268436528,
      fits (stateAfter risingAlloc reuseOps) 1048512 268436528) =
      (some 268436512, some true) ∧
    (myMalloc risingAlloc 8 (stateAfter risingAlloc reuseOps) 1048512).bind
        (fun r => (header r.2 268436528).map fun h =>
          (r.1, h.size, h.free, r.2.poolList.map PoolHeader.base)) =
      some (268436560, 0, false, [268435456]) := by
  decide

/-! ## The split threshold -/

/-- C15 (amended): let the threshold `a + 2 * sizeof(BlockHeader) + ALIGNMENT` of a request with
aligned size `a` not wrap, and let `S` be the recorded size of the block. When `S` reaches the
threshold, `splitAndAllocate` returns `block + 32`, the block keeps exactly `a` bytes and is
marked allocated, and the header at `block + 32 + a` becomes the head of the list of class
`getClass (S - a - 32)`; that header reads as free with size `S - a - 32` provided the `prev`
field of the previous head of that list shares no byte with the first nine bytes of the new
header. When `S` is below the threshold, the only store is the cleared `free` flag of the
block, whose size stays `S`. -/
theorem carve_threshold (s : State) (block size S : Nat)
    (hnw : alignSize size + 2 * HEADER_SIZE + ALIGNMENT < SIZE_MOD)
    (hS : s.size block = some S) :
    (alignSize size + 2 * HEADER_SIZE + ALIGNMENT ≤ S →
      ∃ s', splitAndAllocate s block size = some ((block + HEADER_SIZE) % SIZE_MOD, s') ∧
        s'.size block = some (alignSize size) ∧ s'.free block = some false ∧
        s'.freeLists (getClass (S - alignSize size - HEADER_SIZE)) =
          (block + (alignSize size + HEADER_SIZE)) % SIZE_MOD ∧
        s'.poolList = s.poolList ∧
        (s.freeLists (getClass (S - alignSize size - HEADER_SIZE)) = 0 ∨
          Apart (s.freeLists (getClass (S - alignSize size - HEADER_SIZE)) + 24) 8
            ((block + (alignSize size + HEADER_SIZE)) % SIZE_MOD) 9 →
          s'.size ((block + (alignSize size + HEADER_SIZE)) % SIZE_MOD) =
              some (S - alignSize size - HEADER_SIZE) ∧
            s'.free ((block + (alignSize size + HEADER_SIZE)) % SIZE_MOD) = some true)) ∧
    (S < alignSize size + 2 * HEADER_SIZE + ALIGNMENT →
      splitAndAllocate s block size =
          some ((block + HEADER_SIZE) % SIZE_MOD, setFree s block false) ∧
        (setFree s block false).size block = some S ∧
        (setFree s block false).free block = some false) := by
  refine ⟨fun hge => carve_fields hnw hS hge, fun hlt => ⟨splitAndAllocate_whole_eq hnw hS hlt, ?_,
    free_setFree _ _ _⟩⟩
  rw [size_setFree, hS]

/-- C15 witness: the block of 1048544 bytes at the base of a fresh pool and a request of 40
bytes. -/
theorem carve_threshold_witness :
    (alignSize 40 + 2 * HEADER_SIZE + ALIGNMENT ≤ 1048544 →
      ∃ s', splitAndAllocate (stateAfter risingAlloc []) (risingAlloc 0) 40 =
          some ((risingAlloc 0 + HEADER_SIZE) % SIZE_MOD, s') ∧
        s'.size (risingAlloc 0) = some (alignSize 40) ∧ s'.free (risingAlloc 0) = some false ∧
        s'.freeLists (getClass (1048544 - alignSize 40 - HEADER_SIZE)) =
          (risingAlloc 0 + (alignSize 40 + HEADER_SIZE)) % SIZE_MOD ∧
        s'.poolList = (stateAfter risingAlloc []).poolList ∧
        ((stateAfter risingAlloc []).freeLists (getClass (1048544 - alignSize 40 - HEADER_SIZE))
            = 0 ∨
          Apart ((stateAfter risingAlloc []).freeLists
              (getClass (1048544 - alignSize 40 - HEADER_SIZE)) + 24) 8
            ((risingAlloc 0 + (alignSize 40 + HEADER_SIZE)) % SIZE_MOD) 9 →
          s'.size ((risingAlloc 0 + (alignSize 40 + HEADER_SIZE)) % SIZE_MOD) =
              some (1048544 - alignSize 40 - HEADER_SIZE) ∧
            s'.free ((risingAlloc 0 + (alignSize 40 + HEADER_SIZE)) % SIZE_MOD) = some true)) ∧
    (1048544 < alignSize 40 + 2 * HEADER_SIZE + ALIGNMENT →
      splitAndAllocate (stateAfter risingAlloc []) (risingAlloc 0) 40 =
          some ((risingAlloc 0 + HEADER_SIZE) % SIZE_MOD,
            setFree (stateAfter risingAlloc []) (risingAlloc 0) false) ∧
        (setFree (stateAfter risingAlloc []) (risingAlloc 0) false).size (risingAlloc 0)
          = some 1048544 ∧
        (setFree (stateAfter risingAlloc []) (risingAlloc 0) false).free (risingAlloc 0)
          = some false) :=
  carve_threshold (stateAfter risingAlloc []) (risingAlloc 0) 40 1048544 (by decide) (by decide)

/-- C15 counterexample: in `thresholdOps` the last request of 16 bytes is served from the free
block of 64 bytes at the pool start; `64 ≥ 16 + 32 + 16`, yet the block is handed out whole
with size 64 and the walk of the pool finds the same three blocks as before. -/
theorem whole_block_at_claimed_threshold :
    (exec risingAlloc 8 [.malloc 64, .malloc 16, .free 0]).bind
        (fun r => (blocksOf r.state (risingAlloc 0)).map fun l => (l, freeChains r.state)) =
      some ([(268435456, 64, true), (268435552, 16, false), (268435600, 1048400, true)],
        [some [268435456], some [], some [], some [268435600]]) ∧
    (exec risingAlloc 8 thresholdOps).bind
        (fun r => (blocksOf r.state (risingAlloc 0)).map fun l => (l, r.hist)) =
      some ([(268435456, 64, false), (268435552, 16, false), (268435600, 1048400, true)],
        [268435488, 268435584, 268435488]) ∧
    alignSize 16 + HEADER_SIZE + ALIGNMENT ≤ 64 := by
  decide

/-! ## Failing inputs that rest on overlapping headers -/

/-- C7: after `misalignOps`, nine valid calls that follow `initPool()` with the one pool at
`0x10000000`, the last `myMalloc(288)` returns `0x100dbd21`: the offset of its header from the
pool base leaves remainder 1 modulo 16, and the head of the list of class 3 is the misaligned
address `0x100dbe41`. -/
theorem misaligned_result :
    (exec risingAlloc 8 misalignOps).map
        (fun r => (r.hist, r.live, r.state.poolList.map PoolHeader.base, r.state.freeLists 3)) =
      some ([0x10000020, 0x10000020, 0x100dbbe0, 0x10000150, 0x10000020, 0x100dbd21],
        [0x100dbd21, 0x10000020, 0x100dbbe0], [0x10000000], 0x100dbe41) ∧
    (0x100dbd21 - 0x10000000 - HEADER_SIZE) % ALIGNMENT = 1 ∧
    (0x100dbe41 - 0x10000000) % ALIGNMENT = 1 ∧
    0x10000000 ≤ 0x100dbd21 ∧ 0x100dbd21 < 0x10000000 + POOL_SIZE := by
  decide

/-- C8: in the state after `exhaustOps` the four lists are finite chains and neither of the two
headers linked in the lists of classes 1 to 3 passes the test for 160 bytes, so the search of
`myMalloc(160)` fails and one pool is pushed. The store `freeLists[3]->prev = block` of
`insertBlock` then sets the free byte of the header `0x10000100`, 16 bytes above the old head
of list 3, and the retry returns `0x10000120` in the old pool, not `base + 32` of the new
pool. -/
theorem growth_returns_old_block :
    (exec mappedAlloc 8 exhaustOps).map (fun r => (r.hist, r.live,
        r.state.poolList.map PoolHeader.base)) =
      some ([0x10000030, 0x10000120, 0x100001c0, 0x10000030, 0x10000110, 0x10000030],
        [0x10000030], [0x10000010]) ∧
    freeChains (stateAfter mappedAlloc exhaustOps) =
      [some [], some [0x100000f0, 0x10000100], some [], some [0x100000f0, 0x10000100]] ∧
    (getClass (alignSize 160), decide (alignSize 160 ≤ POOL_SIZE - HEADER_SIZE)) = (1, true) ∧
    (fits (stateAfter mappedAlloc exhaustOps) (alignSize 160) 0x100000f0,
     fits (stateAfter mappedAlloc exhaustOps) (alignSize 160) 0x10000100) =
      (some false, some false) ∧
    (myMalloc mappedAlloc 8 (stateAfter mappedAlloc exhaustOps) 160).map
      (fun r => (r.1, r.2.poolList.map PoolHeader.base)) =
      some (0x10000120, [0x10200010, 0x10000010]) ∧
    0x10000120 ≠ 0x10200010 + HEADER_SIZE := by
  decide

/-- C11: after `poolOps` the pointer `0x10000130` is live and the header of its block, at
`0x10000110`, is marked allocated; the head of list 3 is `0x10000100`, 16 bytes below that
header. The call `initPool()` with the new pool at `0x10200010` stores the new base in the
`prev` field of the old head; the low byte of that pointer lands on the free byte of the live
block, which changes from `0` to `0x10` and reads as free afterwards. -/
theorem initPool_changes_live_header :
    (exec mappedAlloc 8 poolOps).map (fun r => (r.hist, r.live, r.state.freeLists 3)) =
      some ([0x10000030, 0x10000030, 0x10000130, 0x10000030], [0x10000030, 0x10000130],
        0x10000100) ∧
    (load8 (stateAfter mappedAlloc poolOps) (0x10000130 - HEADER_SIZE + 8),
     (stateAfter mappedAlloc poolOps).free (0x10000130 - HEADER_SIZE)) = (some 0, some false) ∧
    ((initPool (stateAfter mappedAlloc poolOps) (mappedAlloc 1) POOL_SIZE).bind
      fun s => (load8 s (0x10000130 - HEADER_SIZE + 8)).bind fun v =>
        (s.free (0x10000130 - HEADER_SIZE)).map fun f =>
          (v, f, s.poolList.map PoolHeader.base, s.freeLists 3)) =
      some (0x10, true, [0x10200010, 0x10000010], 0x10200010) := by
  decide

/-- C16: in `shiftOps` the last call `myMalloc(224)` finds the free block of 1048544 bytes at
the pool base and takes the split branch: the block keeps 224 bytes and the remainder header
at `base + 256` is the head of list 3 with size `1048544 - 224 - 32`. The absorbed header at
`base + 240` was the head of list 3 before; the store into its `prev` field lands on the free
byte of the remainder, which reads as not free. -/
theorem remainder_not_free :
    (exec risingAlloc 8 shiftOps).map (fun r => (r.hist, r.live)) =
      some ([0x10000020, 0x10000020], [0x10000020]) ∧
    (header (stateAfter risingAlloc [.malloc 208, .free 0]) 0x10000000,
     freeChains (stateAfter risingAlloc [.malloc 208, .free 0])) =
      (some { size := 1048544, free := true, next := 0x100000f0, prev := 0 },
       [some [], some [], some [], some [0x10000000, 0x100000f0]]) ∧
    (alignSize 224, decide (alignSize 224 + 2 * HEADER_SIZE + ALIGNMENT ≤ 1048544)) =
      (224, true) ∧
    ((stateAfter risingAlloc shiftOps).size 0x10000000,
     (stateAfter risingAlloc shiftOps).free 0x10000000,
     (stateAfter risingAlloc shiftOps).freeLists 3,
     (stateAfter risingAlloc shiftOps).size (0x10000000 + HEADER_SIZE + 224),
     (stateAfter risingAlloc shiftOps).free (0x10000000 + HEADER_SIZE + 224)) =
      (some 224, some false, 0x10000000 + HEADER_SIZE + 224, some (1048544 - 224 - HEADER_SIZE),
        some false) := by
  decide

/-- C18: in the state after `staleSizeOps` the four lists are finite chains and neither header
linked in them passes the test for 2000000 bytes, a request larger than a pool. The first
retry of `myMalloc(2000000)` pushes the pool at `0x10200010`; the store into the `prev` field
of the old head of list 3 sets the free byte of the stale header 16 bytes above it, whose size
field holds a pointer; that header passes the test after the growth step and the call returns
`0x10000460` with two pools. -/
theorem oversized_request_returns :
    (exec mappedAlloc 8 staleSizeOps).map (fun r => (r.hist, r.live,
        r.state.poolList.map PoolHeader.base)) =
      some ([0x10000030, 0x10000030], [0x10000030], [0x10000010]) ∧
    freeChains (stateAfter mappedAlloc staleSizeOps) =
      [some [], some [], some [], some [0x10000430, 0x10000440]] ∧
    (alignSize 2000000, decide (POOL_SIZE - HEADER_SIZE < alignSize 2000000)) =
      (2000000, true) ∧
    (header (stateAfter mappedAlloc staleSizeOps) 0x10000430,
     (stateAfter mappedAlloc staleSizeOps).free 0x10000440) =
      (some { size := 1047488, free := true, next := 0x10000440, prev := 0 }, some false) ∧
    (fits (stateAfter mappedAlloc staleSizeOps) 2000000 0x10000430,
     fits (stateAfter mappedAlloc staleSizeOps) 2000000 0x10000440) = (some false, some false) ∧
    ((grow mappedAlloc 1 (stateAfter mappedAlloc staleSizeOps)).bind fun t =>
      (fits t 2000000 0x10000440).map fun f => (f, t.poolList.map PoolHeader.base)) =
      some (true, [0x10200010, 0x10000010]) ∧
    (myMalloc mappedAlloc 8 (stateAfter mappedAlloc staleSizeOps) 2000000).map
      (fun r => (r.1, r.2.poolList.map PoolHeader.base)) =
      some (0x10000460, [0x10200010, 0x10000010]) := by
  decide

end traces

end Bytes

/-! ## The two views on the call sequences of the header view

On each call sequence that a theorem of the header view evaluates, the byte view returns (it
loads no indeterminate byte) and gives the same observation. -/

section views
set_option maxRecDepth 100000

/-- The walk of the newer pool after `demoOps` (C2). -/
theorem views_agree_demo :
    (Bytes.exec risingAlloc 8 demoOps).bind (fun r => Bytes.blocksOf r.state (risingAlloc 1)) =
      (exec risingAlloc 4 demoOps).map (fun r => blocksOf r.state (risingAlloc 1)) ∧
    ((exec risingAlloc 4 demoOps).map fun r => blocksOf r.state (risingAlloc 1)).isSome = true := by
  decide

/-- The walk of the pool after `pairOps` (C3). -/
theorem views_agree_pair :
    (Bytes.exec risingAlloc 8 pairOps).bind (fun r => Bytes.blocksOf r.state (risingAlloc 0)) =
      (exec risingAlloc 4 pairOps).map (fun r => blocksOf r.state (risingAlloc 0)) ∧
    ((exec risingAlloc 4 pairOps).map fun r => blocksOf r.state (risingAlloc 0)).isSome = true := by
  decide

/-- The walk of the pool and the four lists after `staleOps` (C4, C5). -/
theorem views_agree_stale :
    (Bytes.exec risingAlloc 8 staleOps).bind (fun r =>
        (Bytes.blocksOf r.state (risingAlloc 0)).map fun l => (l, Bytes.freeChains r.state)) =
      (exec risingAlloc 4 staleOps).map (fun r => (blocksOf r.state (risingAlloc 0),
        (freeChains r.state).map some)) ∧
    (exec risingAlloc 4 staleOps).isSome = true := by
  decide

/-- The walk of the pool and the four lists after `singleOps` (C5). -/
theorem views_agree_single :
    (Bytes.exec risingAlloc 8 singleOps).bind (fun r =>
        (Bytes.blocksOf r.state (risingAlloc 0)).map fun l => (l, Bytes.freeChains r.state)) =
      (exec risingAlloc 4 singleOps).map (fun r => (blocksOf r.state (risingAlloc 0),
        (freeChains r.state).map some)) ∧
    (exec risingAlloc 4 singleOps).isSome = true := by
  decide

/-- The results, the live pointers, the pools and the head of list 0 with its header after
`loopOps` (C6). -/
theorem views_agree_loop :
    (Bytes.exec risingAlloc 8 loopOps).bind (fun r => (Bytes.header r.state 268435552).map
        fun h => (r.hist, r.live, r.state.poolList, r.state.freeLists 0, h)) =
      (exec risingAlloc 4 loopOps).map (fun r => (r.hist, r.live, r.state.poolList,
        r.state.freeLists 0, r.state.mem 268435552)) ∧
    (exec risingAlloc 4 loopOps).isSome = true := by
  decide

/-- The pools and the walk of the older pool after `twoPoolOps` with the second pool below the
first (C9). -/
theorem views_agree_two_pools :
    (Bytes.exec fallingAlloc 8 twoPoolOps).bind (fun r =>
        (Bytes.blocksOf r.state (fallingAlloc 0)).map fun l => (r.state.poolList, l)) =
      (exec fallingAlloc 4 twoPoolOps).map (fun r => (r.state.poolList,
        blocksOf r.state (fallingAlloc 0))) ∧
    (exec fallingAlloc 4 twoPoolOps).isSome = true := by
  decide

/-- The results, the live pointers and the headers of the two live blocks after `overlapOps`
(C19). -/
theorem views_agree_overlap :
    (Bytes.exec risingAlloc 8 overlapOps).bind (fun r =>
      (Bytes.header r.state (268435488 - HEADER_SIZE)).bind fun h1 =>
      (Bytes.header r.state (268435536 - HEADER_SIZE)).map fun h2 =>
        (r.hist, r.live, h1.size, h2.size, h1.free, h2.free)) =
    (exec risingAlloc 4 overlapOps).map (fun r => (r.hist, r.live,
        (r.state.mem (268435488 - HEADER_SIZE)).size,
        (r.state.mem (268435536 - HEADER_SIZE)).size,
        (r.state.mem (268435488 - HEADER_SIZE)).free,
        (r.state.mem (268435536 - HEADER_SIZE)).free)) ∧
    (exec risingAlloc 4 overlapOps).isSome = true := by
  decide

/-- The results, the live pointers, the pools and the head of list 3 with its header after
`cycleOps` (C20). -/
theorem views_agree_cycle :
    (Bytes.exec risingAlloc 8 cycleOps).bind (fun r => (Bytes.header r.state 268435504).map
        fun h => (r.hist, r.live, r.state.poolList, r.state.freeLists 3, h)) =
      (exec risingAlloc 4 cycleOps).map (fun r => (r.hist, r.live, r.state.poolList,
        r.state.freeLists 3, r.state.mem 268435504)) ∧
    (exec risingAlloc 4 cycleOps).isSome = true := by
  decide

end views

end Allocator
